import Mathlib

/-!
# Verification of the auto-tik quiz-video pipeline

A shallow embedding of the pipeline of the `auto-tik` repository
(`main.py`, `src/question_generator.py`, `src/srt_generator.py`,
`src/video_creator.py`, `src/storage.py`, `src/theme_selector.py`,
`src/tts_engine.py`) together with theorems settling the specification
claims about it.

Modelling conventions:
* Python floats are modelled as rationals (`ℚ`); the code only adds,
  subtracts, divides and floors them.
* Calls into external services (the LLM chat API, `json.loads`, the
  filesystem, moviepy encoding, cloud SDKs) are modelled as explicit
  oracle parameters: arbitrary functions or `Except`-valued results
  supplied to the embedded function.  Everything the repository's own
  code does with those results is translated from the source.
* Python exceptions are modelled with `Except`; a `try/except` that
  logs and re-raises is the identity on the error, a `try/except` that
  logs and continues is modelled by the fallback the code takes.
-/

namespace AutoTik

/-- Structural equality test for `Except` results (not derived in core). -/
instance {ε α : Type} [DecidableEq ε] [DecidableEq α] : DecidableEq (Except ε α) := fun x y =>
  match x, y with
  | .ok a, .ok b =>
    if h : a = b then isTrue (by rw [h]) else isFalse (by intro hh; cases hh; exact h rfl)
  | .error e, .error f =>
    if h : e = f then isTrue (by rw [h]) else isFalse (by intro hh; cases hh; exact h rfl)
  | .ok _, .error _ => isFalse (by intro hh; cases hh)
  | .error _, .ok _ => isFalse (by intro hh; cases hh)

/-- Python `str.strip()` on a character list: drop whitespace from both
ends. -/
def stripChars (cs : List Char) : List Char :=
  ((cs.dropWhile Char.isWhitespace).reverse.dropWhile Char.isWhitespace).reverse

/-- Python `str.strip()`. -/
def pyStrip (s : String) : String :=
  String.mk (stripChars s.toList)

/-! ## Question generator (`src/question_generator.py`) -/

/-- Configuration fields read by `QuestionGenerator`:
`num_questions` (constructor argument, `main.py` passes
`config["num_questions"]`), `config["prompt"]["num_choices"]` and
`config["size_question"]`. -/
structure QGConfig where
  num_questions : Nat
  num_choices : Nat
  size_question : Nat
deriving Repr, DecidableEq

/-- The two `ValueError`s `_clean_json_string` can raise
(lines 88 and 103 of `question_generator.py`). -/
inductive CleanErr
  | noJson
  | badJson
deriving Repr, DecidableEq

/-- Index of the first opening brace, `text.find("{")`
(line 86 of `question_generator.py`). -/
def findOpenBrace : List Char → Option Nat
  | [] => none
  | c :: cs => if c = '\x7b' then some 0 else (findOpenBrace cs).map (· + 1)

/-- The brace-counting loop of `_clean_json_string`
(lines 91-100): starting at the first opening brace, the count is
incremented at `\x7b` and decremented at `\x7d`; the scan stops at the
closing brace that brings the count back to zero and returns its offset.
Returns `none` when the count never returns to zero, which the source
detects as `end_idx == start_idx` and turns into a `ValueError`. -/
def braceScan : List Char → Int → Option Nat
  | [], _ => none
  | c :: cs, cnt =>
    let cnt' := if c = '\x7b' then cnt + 1 else if c = '\x7d' then cnt - 1 else cnt
    if c = '\x7d' ∧ cnt' = 0 then some 0 else (braceScan cs cnt').map (· + 1)

/-- `QuestionGenerator._clean_json_string`, lines 83-108: strip the
text, find the first `\x7b`, and slice up to the matching `\x7d`.  The
subsequent regex passes (lines 111-130) only normalise whitespace and
HTML inside the extracted slice and never raise; since the JSON decoder
is an oracle parameter in this embedding, composing them would not
change any observable behaviour, so they are omitted. -/
def cleanJsonExtract (text : String) : Except CleanErr String :=
  let cs := stripChars text.toList
  match findOpenBrace cs with
  | none => .error .noJson
  | some s =>
    let rest := cs.drop s
    match braceScan rest 0 with
    | none => .error .badJson
    | some e => .ok (String.mk (rest.take (e + 1)))

/-- One question as decoded from the LLM JSON: any of the three keys
may be absent (`validate_question` checks `required_fields`). -/
structure RawQuestion where
  question : Option String
  choices : Option (List (String × String))
  answer : Option String
deriving Repr, DecidableEq

/-- The decoded top-level JSON object: `questions` is `some` when the
key is present and maps to a list (line 149 of
`question_generator.py`), `none` otherwise. -/
structure ParsedDoc where
  questions : Option (List RawQuestion)
deriving Repr, DecidableEq

/-- Python dict lookup on the JSON object modelled as an association
list (keys are unique in a decoded JSON object). -/
def lookupKey (d : List (String × String)) (k : String) : Option String :=
  (d.find? (fun p => p.1 = k)).map (·.2)

/-- `QuestionGenerator.validate_question`, lines 192-218: all three
fields present, question no longer than `size_question`, exactly
`num_choices` choices with keys `"1" .. str(num_choices)` all present,
and the answer one of those keys. -/
def validate_question (cfg : QGConfig) (q : RawQuestion) : Bool :=
  match q.question, q.choices, q.answer with
  | some qt, some ch, some ans =>
    (qt.length ≤ cfg.size_question)
      && (ch.length = cfg.num_choices)
      && ((List.range cfg.num_choices).all (fun i => (lookupKey ch (toString (i + 1))).isSome))
      && ((List.range cfg.num_choices).any (fun i => ans = toString (i + 1)))
  | _, _, _ => false

/-- A validated question as returned by `generate_question`
(lines 156-160): question and answer stripped, choices as-is. -/
structure OutQuestion where
  question : String
  choices : List (String × String)
  answer : String
deriving Repr, DecidableEq

/-- Lines 156-160 of `question_generator.py`: build the output record
from a raw question that passed validation (whose fields are therefore
all present; `getD` defaults are never reached on validated input). -/
def stripQ (q : RawQuestion) : OutQuestion :=
  ⟨pyStrip (q.question.getD ""), q.choices.getD [], pyStrip (q.answer.getD "")⟩

/-- Errors `generate_question` can raise, plus `fuelOut`, which marks
that the self-recursion at line 171 of `question_generator.py` (which
has no depth limit in the source) exceeded the fuel given to this
terminating embedding. -/
inductive GenErr
  | noJson
  | badJson
  | jsonDecode
  | badFormat
  | noValidQuestion
  | fuelOut
deriving Repr, DecidableEq

/-- Injection of the `_clean_json_string` errors into `GenErr`. -/
def liftClean : CleanErr → GenErr
  | .noJson => .noJson
  | .badJson => .badJson

/-- `QuestionGenerator.generate_question`, lines 137-173.
`llm` is the oracle for `generate_smart_quiz` (the k-th call returns
`llm k`); `jloads` is the oracle for `json.loads` (`none` models a
`JSONDecodeError`).  The steps, in source order: extract the JSON
slice (raises on failure), decode it (raises on failure), check the
`questions` key (raises on failure), filter by `validate_question` and
strip, raise if nothing validated, truncate to `num_questions`, and
recurse on the next LLM response when fewer than `num_questions`
validated.  The recursion is bounded here only by `fuel`; the source
has no bound. -/
def generate_question (cfg : QGConfig) (jloads : String → Option ParsedDoc)
    (llm : Nat → String) : Nat → Nat → Except GenErr (List OutQuestion)
  | 0, _ => .error .fuelOut
  | fuel + 1, k =>
    match cleanJsonExtract (llm k) with
    | .error ce => .error (liftClean ce)
    | .ok jstr =>
      match jloads jstr with
      | none => .error .jsonDecode
      | some doc =>
        match doc.questions with
        | none => .error .badFormat
        | some qs =>
          let validated := (qs.filter (validate_question cfg)).map stripQ
          if validated.isEmpty then .error .noValidQuestion
          else
            let limited := validated.take cfg.num_questions
            if limited.length < cfg.num_questions then
              generate_question cfg jloads llm fuel (k + 1)
            else .ok limited

/-- Concrete generator configuration used to exhibit runs of
`generate_question`: two questions requested, three choices,
questions up to 100 characters. -/
def c1Cfg : QGConfig := ⟨2, 3, 100⟩

/-- A three-choice dictionary with keys `"1"`, `"2"`, `"3"`. -/
def c1Choices : List (String × String) := [("1", "A"), ("2", "B"), ("3", "C")]

/-- A raw question that passes `validate_question c1Cfg`. -/
def c1Rq1 : RawQuestion := ⟨some "Q1", some c1Choices, some "1"⟩

/-- A second raw question that passes `validate_question c1Cfg`. -/
def c1Rq2 : RawQuestion := ⟨some "Q2", some c1Choices, some "2"⟩

/-- An LLM oracle whose every response extracts to the JSON slice
`"\x7bq\x7d"`. -/
def c1Llm : Nat → String := fun _ => "\x7bq\x7d"

/-- A `json.loads` oracle that always decodes to a document holding a
single valid question: every regeneration round then validates one
question, fewer than the two requested. -/
def c1Jloads : String → Option ParsedDoc := fun _ => some ⟨some [c1Rq1]⟩

/-- An LLM oracle whose first response contains no JSON object at all
and whose every later response is well-formed. -/
def c1LlmCx : Nat → String := fun k => if k = 0 then "pas de json" else "\x7bq\x7d"

/-- A `json.loads` oracle decoding every extracted slice to a document
with two valid questions. -/
def c1JloadsCx : String → Option ParsedDoc := fun _ => some ⟨some [c1Rq1, c1Rq2]⟩

/-- Any successful return of `generate_question` has exactly
`num_questions` entries, each the stripped form of a raw question that
passed `validate_question` (lines 152-173 of
`question_generator.py`). -/
theorem generate_question_ok_spec (cfg : QGConfig) (jl : String → Option ParsedDoc)
    (llm : Nat → String) : ∀ fuel k qs, generate_question cfg jl llm fuel k = .ok qs →
    qs.length = cfg.num_questions ∧
      ∀ q ∈ qs, ∃ raw, validate_question cfg raw = true ∧ q = stripQ raw := by
  intro fuel
  induction fuel with
  | zero => intro k qs h; exact absurd h (by simp [generate_question])
  | succ n ih =>
    intro k qs h
    rw [generate_question] at h
    cases hc : cleanJsonExtract (llm k) with
    | error ce => rw [hc] at h; exact absurd h (by simp)
    | ok jstr =>
      rw [hc] at h
      dsimp only at h
      cases hj : jl jstr with
      | none => rw [hj] at h; exact absurd h (by simp)
      | some doc =>
        rw [hj] at h
        dsimp only at h
        cases hq : doc.questions with
        | none => rw [hq] at h; exact absurd h (by simp)
        | some rawqs =>
          rw [hq] at h
          dsimp only at h
          by_cases he : ((rawqs.filter (validate_question cfg)).map stripQ).isEmpty
          · rw [if_pos he] at h; exact absurd h (by simp)
          · rw [if_neg he] at h
            by_cases hl : (((rawqs.filter (validate_question cfg)).map stripQ).take
                cfg.num_questions).length < cfg.num_questions
            · rw [if_pos hl] at h
              exact ih _ _ h
            · rw [if_neg hl] at h
              have hqs : qs = ((rawqs.filter (validate_question cfg)).map stripQ).take
                  cfg.num_questions := by
                cases h; rfl
              subst hqs
              refine ⟨?_, ?_⟩
              · have := List.length_take cfg.num_questions
                  ((rawqs.filter (validate_question cfg)).map stripQ)
                omega
              · intro q hqmem
                have hq' : q ∈ (rawqs.filter (validate_question cfg)).map stripQ :=
                  List.mem_of_mem_take hqmem
                rcases List.mem_map.mp hq' with ⟨raw, hrawmem, hrw⟩
                exact ⟨raw, (List.mem_filter.mp hrawmem).2, hrw.symm⟩

/-- C1, amended.  On a malformed LLM response `generate_question`
raises immediately (no regeneration, whatever the later responses);
the self-regeneration at line 171 fires only when at least one but
fewer than `num_questions` questions validate, and it has no bound: a
run that keeps validating one question out of two requested recurses
past every fuel bound.  Any value actually returned holds exactly
`num_questions` validated questions. -/
theorem C1_retry_behavior (cfg : QGConfig) (jl : String → Option ParsedDoc)
    (llm : Nat → String) :
    (∀ fuel ce, cleanJsonExtract (llm 0) = .error ce →
      generate_question cfg jl llm (fuel + 1) 0 = .error (liftClean ce))
  ∧ (∀ fuel js, cleanJsonExtract (llm 0) = .ok js → jl js = none →
      generate_question cfg jl llm (fuel + 1) 0 = .error .jsonDecode)
  ∧ (∀ fuel k qs, generate_question cfg jl llm fuel k = .ok qs →
      qs.length = cfg.num_questions ∧
        ∀ q ∈ qs, ∃ raw, validate_question cfg raw = true ∧ q = stripQ raw)
  ∧ (∀ fuel k, generate_question c1Cfg c1Jloads c1Llm fuel k = .error .fuelOut) := by
  refine ⟨?_, ?_, generate_question_ok_spec cfg jl llm, ?_⟩
  · intro fuel ce hc
    rw [generate_question, hc]
  · intro fuel js hc hj
    rw [generate_question, hc]
    dsimp only
    rw [hj]
  · intro fuel
    induction fuel with
    | zero => intro k; rfl
    | succ n ih =>
      intro k
      rw [generate_question]
      have hllm : c1Llm k = "\x7bq\x7d" := rfl
      rw [hllm]
      have hc : cleanJsonExtract "\x7bq\x7d" = .ok "\x7bq\x7d" := by decide
      rw [hc]
      dsimp only
      have hj : c1Jloads "\x7bq\x7d" = some ⟨some [c1Rq1]⟩ := rfl
      rw [hj]
      dsimp only
      have hval : (([c1Rq1].filter (validate_question c1Cfg)).map stripQ) =
          [⟨"Q1", c1Choices, "1"⟩] := by decide
      rw [hval]
      simpa using ih (k + 1)

/-- C1, counterexample to the claim as stated: with a first LLM
response containing no JSON and a perfectly valid second response,
`generate_question` does not regenerate — it raises on the first
response (first conjunct), even though starting from the second
response the very same run succeeds (second conjunct). -/
theorem C1_counterexample :
    generate_question c1Cfg c1JloadsCx c1LlmCx 10 0 = .error .noJson
  ∧ generate_question c1Cfg c1JloadsCx (fun k => c1LlmCx (k + 1)) 10 0 =
      .ok [⟨"Q1", c1Choices, "1"⟩, ⟨"Q2", c1Choices, "2"⟩] := by
  constructor <;> decide

/-- C1, witness: the amended theorem applied at concrete inputs. -/
theorem C1_witness :
    generate_question c1Cfg c1JloadsCx c1LlmCx (9 + 1) 0 = .error (liftClean .noJson)
  ∧ generate_question c1Cfg c1Jloads c1Llm 3 7 = .error .fuelOut
  ∧ (⟨"Q1", c1Choices, "1"⟩ :: [⟨"Q2", c1Choices, "2"⟩] : List OutQuestion).length =
      c1Cfg.num_questions :=
  ⟨(C1_retry_behavior c1Cfg c1JloadsCx c1LlmCx).1 9 .noJson (by decide),
   (C1_retry_behavior c1Cfg c1Jloads c1Llm).2.2.2 3 7,
   ((C1_retry_behavior c1Cfg c1JloadsCx (fun k => c1LlmCx (k + 1))).2.2.1 10 0 _
     (by decide)).1⟩

/-! ## Video creator (`src/video_creator.py`) -/

/-- Configuration fields `VideoCreator.create_video` reads that matter
to segment structure: `config["prompt"]["num_choices"]`. -/
structure VideoCfg where
  num_choices : Nat
deriving Repr, DecidableEq

/-- One audio entry of the list returned by
`TTSEngine.generate_question_audio` (`tts_engine.py` lines 95-101),
with the `start_time`/`end_time` fields `main.py` adds at
lines 90-92. -/
structure AudioSeg where
  path : String
  text : String
  duration : ℚ
  start_time : ℚ
  end_time : ℚ
  is_question : Bool
  is_answer : Bool
deriving Repr, DecidableEq

/-- One styled text box produced by `VideoCreator._create_text_box`:
its text and whether it got the `is_correct` (highlight) styling. -/
structure TextBox where
  text : String
  isCorrect : Bool
deriving Repr, DecidableEq

/-- One concatenated segment of the per-question video: the boxes
composited over it, whether the countdown-timer overlay is present,
the audio attached with `with_audio`, and the `with_duration` value. -/
structure Segment where
  boxes : List TextBox
  hasTimerOverlay : Bool
  audioPath : Option String
  duration : ℚ
deriving Repr, DecidableEq

/-- Python exceptions `create_video` can raise. -/
inductive CVErr
  | fileNotFound (p : String)
  | indexError
  | keyError
  | valueError
deriving Repr, DecidableEq

/-- Evaluate `f` on each element, stopping at the first raised
exception (Python list building inside a `try`). -/
def collectE {ε α β : Type} (f : α → Except ε β) : List α → Except ε (List β)
  | [] => .ok []
  | a :: as =>
    match f a with
    | .error e => .error e
    | .ok b =>
      match collectE f as with
      | .error e => .error e
      | .ok bs => .ok (b :: bs)

/-- Python `int()` on a string: strip, then parse a nonnegative
decimal numeral, `none` for a `ValueError`.  (Signs, underscores and
other bases accepted by Python are not produced by validated answers
and are not modelled.) -/
def pyInt? (s : String) : Option Nat :=
  let cs := stripChars s.toList
  if cs.isEmpty then none
  else if cs.all Char.isDigit then
    some (cs.foldl (fun n c => 10 * n + (c.toNat - 48)) 0)
  else none

/-- The part-1 choice boxes (`video_creator.py` lines 261-269): for
key `i+1`, the box text `"<i+1>. <choice>"` in normal styling; a
missing dict key is a `KeyError`. -/
def mkChoiceBox (q : OutQuestion) (i : Nat) : Except CVErr TextBox :=
  match lookupKey q.choices (toString (i + 1)) with
  | none => .error .keyError
  | some t => .ok ⟨toString (i + 1) ++ ". " ++ t, false⟩

/-- The part-2 boxes (`video_creator.py` lines 288-300): position
`i+1` gets a freshly styled box with the bare choice text when `i+1`
is the correct answer index, and reuses the part-1 box otherwise. -/
def mkPart2Box (q : OutQuestion) (choiceBoxes : List TextBox) (j i : Nat) :
    Except CVErr TextBox :=
  if i + 1 = j then
    match lookupKey q.choices (toString (i + 1)) with
    | none => .error .keyError
    | some t => .ok ⟨t, true⟩
  else
    match choiceBoxes.get? i with
    | none => .error .indexError
    | some b => .ok b

/-- `VideoCreator.create_video`, lines 216-334.  `fileExists` is the
filesystem oracle for the `os.path.exists` checks.  The result is the
list of segments passed to `concatenate_videoclips` at line 327, in
order: part 1 (question and choices, question audio, question audio
duration), the timer segment (3.0 seconds, lines 246 and 284), part 2
(question and choices with the correct one restyled, answer audio,
answer audio duration).  The `duration is not None` guards at
lines 317-321 are always true here because every segment's duration is
set explicitly, exactly as in the source. -/
def create_video (cfg : VideoCfg) (fileExists : String → Bool) (q : OutQuestion)
    (audio_info : List AudioSeg) : Except CVErr (List Segment) :=
  match audio_info.find? (fun a => !(fileExists a.path)) with
  | some a => .error (.fileNotFound a.path)
  | none =>
    match audio_info.get? 0, audio_info.get? 1 with
    | some a0, some a1 =>
      (match collectE (mkChoiceBox q) (List.range cfg.num_choices) with
       | .error e => .error e
       | .ok choiceBoxes =>
         match pyInt? q.answer with
         | none => .error .valueError
         | some j =>
           match collectE (mkPart2Box q choiceBoxes j) (List.range q.choices.length) with
           | .error e => .error e
           | .ok p2boxes =>
             .ok [⟨⟨q.question, false⟩ :: choiceBoxes, false, some a0.path, a0.duration⟩,
                  ⟨⟨q.question, false⟩ :: choiceBoxes, true, none, 3⟩,
                  ⟨⟨q.question, false⟩ :: p2boxes, false, some a1.path, a1.duration⟩])
    | _, _ => .error .indexError

/-- `collectE` succeeds with one output per input. -/
theorem collectE_ok_length {ε α β : Type} (f : α → Except ε β) :
    ∀ l ys, collectE f l = .ok ys → ys.length = l.length := by
  intro l
  induction l with
  | nil => intro ys h; cases h; rfl
  | cons a as ih =>
    intro ys h
    rw [collectE] at h
    cases hf : f a with
    | error e => rw [hf] at h; exact absurd h (by simp)
    | ok b =>
      rw [hf] at h
      dsimp only at h
      cases hr : collectE f as with
      | error e => rw [hr] at h; exact absurd h (by simp)
      | ok bs =>
        rw [hr] at h
        cases h
        simp [ih bs hr]

/-- On success, `collectE` sends the `i`-th input to the `i`-th
output. -/
theorem collectE_ok_get {ε α β : Type} (f : α → Except ε β) :
    ∀ l ys, collectE f l = .ok ys →
      ∀ i a, l.get? i = some a → ∃ b, ys.get? i = some b ∧ f a = .ok b := by
  intro l
  induction l with
  | nil => intro ys h i a ha; cases ha
  | cons x xs ih =>
    intro ys h i a ha
    rw [collectE] at h
    cases hf : f x with
    | error e => rw [hf] at h; exact absurd h (by simp)
    | ok b =>
      rw [hf] at h
      dsimp only at h
      cases hr : collectE f xs with
      | error e => rw [hr] at h; exact absurd h (by simp)
      | ok bs =>
        rw [hr] at h
        cases h
        cases i with
        | zero => cases ha; exact ⟨b, rfl, hf⟩
        | succ n => exact ih bs hr n a ha

/-- On success, every `collectE` output satisfies any postcondition of
`f`. -/
theorem collectE_ok_forall {ε α β : Type} (f : α → Except ε β) (P : β → Prop)
    (hf : ∀ a b, f a = .ok b → P b) :
    ∀ l ys, collectE f l = .ok ys → ∀ b ∈ ys, P b := by
  intro l
  induction l with
  | nil => intro ys h b hb; cases h; cases hb
  | cons x xs ih =>
    intro ys h b hb
    rw [collectE] at h
    cases hx : f x with
    | error e => rw [hx] at h; exact absurd h (by simp)
    | ok y =>
      rw [hx] at h
      dsimp only at h
      cases hr : collectE f xs with
      | error e => rw [hr] at h; exact absurd h (by simp)
      | ok bs =>
        rw [hr] at h
        cases h
        rcases List.mem_cons.mp hb with hb | hb
        · subst hb; exact hf x b hx
        · exact ih bs hr b hb

/-- Part-1 choice boxes are never in correct-answer styling
(`is_correct=False` at line 267 of `video_creator.py`). -/
theorem mkChoiceBox_normal (q : OutQuestion) (a : Nat) (b : TextBox)
    (h : mkChoiceBox q a = .ok b) : b.isCorrect = false := by
  rw [mkChoiceBox] at h
  cases hl : lookupKey q.choices (toString (a + 1)) with
  | none => rw [hl] at h; exact absurd h (by simp)
  | some t => rw [hl] at h; cases h; rfl

/-- C2, confirmed.  Whenever `create_video` succeeds, its result is
the in-order concatenation of exactly three segments: the
question-and-choices segment carrying the first audio entry's file for
exactly that entry's duration with no correct-style box, the countdown
timer segment lasting exactly 3.0 seconds over the same boxes, and the
revealed-answer segment carrying the second audio entry's file for
exactly that entry's duration, in which the box at the correct answer
index is restyled (`is_correct=True`) and shows the bare choice
text. -/
theorem C2_create_video_segments (cfg : VideoCfg) (fe : String → Bool)
    (q : OutQuestion) (audio_info : List AudioSeg) (segs : List Segment)
    (h : create_video cfg fe q audio_info = .ok segs) :
    ∃ a0 a1 p1 tm p2,
      audio_info.get? 0 = some a0 ∧ audio_info.get? 1 = some a1 ∧
      segs = [p1, tm, p2] ∧
      p1.duration = a0.duration ∧ p1.audioPath = some a0.path ∧
      p1.hasTimerOverlay = false ∧ (∀ b ∈ p1.boxes, b.isCorrect = false) ∧
      p1.boxes.length = cfg.num_choices + 1 ∧
      p1.boxes.get? 0 = some ⟨q.question, false⟩ ∧
      tm.duration = 3 ∧ tm.hasTimerOverlay = true ∧ tm.boxes = p1.boxes ∧
      p2.duration = a1.duration ∧ p2.audioPath = some a1.path ∧
      p2.hasTimerOverlay = false ∧
      (∀ j, pyInt? q.answer = some j → 1 ≤ j → j ≤ q.choices.length →
        ∃ b t, p2.boxes.get? j = some b ∧ b = ⟨t, true⟩ ∧
          lookupKey q.choices (toString j) = some t) := by
  rw [create_video] at h
  cases hfind : audio_info.find? (fun a => !(fe a.path)) with
  | some a => rw [hfind] at h; exact absurd h (by simp)
  | none =>
    rw [hfind] at h
    dsimp only at h
    cases h0 : audio_info.get? 0 with
    | none =>
      rw [h0] at h
      cases h1 : audio_info.get? 1 with
      | none => rw [h1] at h; exact absurd h (by simp)
      | some a1 => rw [h1] at h; exact absurd h (by simp)
    | some a0 =>
      rw [h0] at h
      cases h1 : audio_info.get? 1 with
      | none => rw [h1] at h; exact absurd h (by simp)
      | some a1 =>
        rw [h1] at h
        dsimp only at h
        cases hcb : collectE (mkChoiceBox q) (List.range cfg.num_choices) with
        | error e => rw [hcb] at h; exact absurd h (by simp)
        | ok choiceBoxes =>
          rw [hcb] at h
          dsimp only at h
          cases hj : pyInt? q.answer with
          | none => rw [hj] at h; exact absurd h (by simp)
          | some j0 =>
            rw [hj] at h
            dsimp only at h
            cases hp2 : collectE (mkPart2Box q choiceBoxes j0)
                (List.range q.choices.length) with
            | error e => rw [hp2] at h; exact absurd h (by simp)
            | ok p2boxes =>
              rw [hp2] at h
              injection h with h
              subst h
              refine ⟨a0, a1, _, _, _, rfl, rfl, rfl, rfl, rfl, rfl, ?_, ?_, rfl,
                rfl, rfl, rfl, rfl, rfl, rfl, ?_⟩
              · intro b hb
                rcases List.mem_cons.mp hb with hb | hb
                · subst hb; rfl
                · exact collectE_ok_forall (mkChoiceBox q) (fun b => b.isCorrect = false)
                    (mkChoiceBox_normal q) _ _ hcb b hb
              · have := collectE_ok_length (mkChoiceBox q) _ _ hcb
                simp at this
                simp [this]
              · intro j hjeq h1j hjlen
                injection hjeq with hjeq
                subst hjeq
                have hlt : j0 - 1 < q.choices.length := by omega
                have hr : (List.range q.choices.length).get? (j0 - 1) = some (j0 - 1) := by
                  simp [List.get?_eq_getElem?, List.getElem?_range hlt]
                rcases collectE_ok_get (mkPart2Box q choiceBoxes j0) _ _ hp2 (j0 - 1)
                    (j0 - 1) hr with ⟨b, hbget, hfb⟩
                have hstep : j0 - 1 + 1 = j0 := by omega
                rw [mkPart2Box, hstep, if_pos rfl] at hfb
                cases hl : lookupKey q.choices (toString j0) with
                | none => rw [hl] at hfb; exact absurd hfb (by simp)
                | some t =>
                  rw [hl] at hfb
                  injection hfb with hfb
                  refine ⟨b, t, ?_, hfb.symm, rfl⟩
                  show (TextBox.mk q.question false :: p2boxes).get? j0 = some b
                  rw [← hstep, List.get?_cons_succ]
                  exact hbget

/-- Concrete inputs for a successful `create_video` run. -/
def c2Q : OutQuestion := ⟨"Q1", c1Choices, "1"⟩

/-- Concrete audio entries: question audio of 5 seconds, answer audio
of 2 seconds. -/
def c2Audio : List AudioSeg :=
  [⟨"a0.mp3", "tq", 5, 0, 0, true, false⟩, ⟨"a1.mp3", "ta", 2, 0, 0, false, true⟩]

/-- C2, witness: the theorem applied to a concrete successful run. -/
theorem C2_witness :
    ∃ a0 a1 p1 tm p2,
      c2Audio.get? 0 = some a0 ∧ c2Audio.get? 1 = some a1 ∧
      ([⟨[⟨"Q1", false⟩, ⟨"1. A", false⟩, ⟨"2. B", false⟩, ⟨"3. C", false⟩], false,
          some "a0.mp3", 5⟩,
        ⟨[⟨"Q1", false⟩, ⟨"1. A", false⟩, ⟨"2. B", false⟩, ⟨"3. C", false⟩], true,
          none, 3⟩,
        ⟨[⟨"Q1", false⟩, ⟨"A", true⟩, ⟨"2. B", false⟩, ⟨"3. C", false⟩], false,
          some "a1.mp3", 2⟩] : List Segment) = [p1, tm, p2] ∧
      p1.duration = a0.duration ∧ p1.audioPath = some a0.path ∧
      p1.hasTimerOverlay = false ∧ (∀ b ∈ p1.boxes, b.isCorrect = false) ∧
      p1.boxes.length = (⟨3⟩ : VideoCfg).num_choices + 1 ∧
      p1.boxes.get? 0 = some ⟨c2Q.question, false⟩ ∧
      tm.duration = 3 ∧ tm.hasTimerOverlay = true ∧ tm.boxes = p1.boxes ∧
      p2.duration = a1.duration ∧ p2.audioPath = some a1.path ∧
      p2.hasTimerOverlay = false ∧
      (∀ j, pyInt? c2Q.answer = some j → 1 ≤ j → j ≤ c2Q.choices.length →
        ∃ b t, p2.boxes.get? j = some b ∧ b = ⟨t, true⟩ ∧
          lookupKey c2Q.choices (toString j) = some t) :=
  C2_create_video_segments ⟨3⟩ (fun _ => true) c2Q c2Audio _ rfl

/-! ## SRT generator (`src/srt_generator.py`) -/

/-- Configuration read by `SRTGenerator.generate_srt`:
`config["subtitles"].get("word_by_word", True)`. -/
structure SrtCfg where
  word_by_word : Bool
deriving Repr, DecidableEq

/-- Python regex `\w` (ASCII part): letters, digits, underscore.  The
texts this pipeline feeds the splitter are produced by the quiz
generator; the Unicode word classes do not change the claims. -/
def isWordChar (c : Char) : Bool :=
  c.isAlphanum || c = '_'

/-- The optional trailing punctuation class `[.,!?;]` of
`_split_text_into_words` (line 302 of `srt_generator.py`). -/
def isPunctTail (c : Char) : Bool :=
  c = '.' || c = ',' || c = '!' || c = '?' || c = ';'

/-- Maximal `\w+` run: the run and the remaining characters. -/
def takeWordRun : List Char → List Char × List Char
  | [] => ([], [])
  | c :: cs =>
    if isWordChar c then
      let p := takeWordRun cs
      (c :: p.1, p.2)
    else ([], c :: cs)

/-- The remainder of a `\w+` run is no longer than the input. -/
theorem takeWordRun_rest_le : ∀ cs : List Char, (takeWordRun cs).2.length ≤ cs.length := by
  intro cs
  induction cs with
  | nil => simp [takeWordRun]
  | cons c cs ih =>
    rw [takeWordRun]
    by_cases h : isWordChar c
    · simp only [h, if_true, List.length_cons]
      omega
    · simp [h]

/-- The scan of `re.findall(r'\w+(?:[.,!?;])?|\S', text)` (line 302 of
`srt_generator.py`), written with explicit fuel so that it stays
kernel-computable: at each position, a maximal word-character run with
one optional trailing punctuation mark, otherwise a single non-space
character, otherwise skip the whitespace.  Each step shortens the
input, so fuel equal to the input length (see `tokenize`) is never
exhausted. -/
def tokenizeFuel : Nat → List Char → List (List Char)
  | 0, _ => []
  | _ + 1, [] => []
  | fuel + 1, c :: cs =>
    if isWordChar c then
      match (takeWordRun cs).2 with
      | pc :: rest' =>
        if isPunctTail pc then
          (c :: (takeWordRun cs).1 ++ [pc]) :: tokenizeFuel fuel rest'
        else
          (c :: (takeWordRun cs).1) :: tokenizeFuel fuel (pc :: rest')
      | [] => [c :: (takeWordRun cs).1]
    else if !c.isWhitespace then
      [c] :: tokenizeFuel fuel cs
    else
      tokenizeFuel fuel cs

/-- The scan of `re.findall(r'\w+(?:[.,!?;])?|\S', text)`. -/
def tokenize (cs : List Char) : List (List Char) :=
  tokenizeFuel cs.length cs

/-- `SRTGenerator._split_text_into_words`, lines 290-303: tokenize,
then keep the tokens whose `strip()` is nonempty. -/
def splitWords (text : String) : List String :=
  ((tokenize text.toList).map (fun cs => String.mk cs)).filter
    (fun w => !(stripChars w.toList).isEmpty)

/-- Lines 61-78 of `srt_generator.py`: when the previous (already
adjusted) segment is a question and the current one its answer, and
the answer starts less than 3 seconds after the question ends, shift
the answer segment by the missing offset. -/
def adjustSeg (prev info : AudioSeg) : AudioSeg :=
  if prev.is_question ∧ info.is_answer ∧ info.start_time < prev.end_time + 3 then
    { info with start_time := prev.end_time + 3,
                end_time := info.end_time + (prev.end_time + 3 - info.start_time) }
  else info

/-- The segment loop of `generate_srt`: the first segment is kept
as-is (`if i > 0` guard), later ones are adjusted against their
already-adjusted predecessor (the Python loop mutates the list it
reads the predecessor from). -/
def adjustGo : Option AudioSeg → List AudioSeg → List AudioSeg
  | _, [] => []
  | none, info :: rest => info :: adjustGo (some info) rest
  | some p, info :: rest =>
    let info' := adjustSeg p info
    info' :: adjustGo (some info') rest

/-- The adjusted segment list `generate_srt` iterates over. -/
def adjustInfos (l : List AudioSeg) : List AudioSeg :=
  adjustGo none l

/-- One entry of the `all_words` list built at lines 96-106 of
`srt_generator.py` (the `is_question`/`is_answer` flags recorded there
are never read when writing the file and are omitted). -/
structure WordSpan where
  text : String
  start_time : ℚ
  end_time : ℚ
deriving Repr, DecidableEq

/-- Lines 96-106: sequentially assign each word the running time and
the uniform per-word duration. -/
def assignSpans (wd : ℚ) : ℚ → List String → List WordSpan
  | _, [] => []
  | t, w :: ws => ⟨w, t, t + wd⟩ :: assignSpans wd (t + wd) ws

/-- Lines 80-85: word-by-word splitting, or the whole text as one
pseudo-word. -/
def segWords (scfg : SrtCfg) (info : AudioSeg) : List String :=
  if scfg.word_by_word then splitWords info.text else [info.text]

/-- The words contributed by one (already adjusted) segment, with
their timings: uniform duration `(end - start) / len(words)`
(lines 87-106); an empty word list contributes nothing (`continue`). -/
def segSpans (scfg : SrtCfg) (info : AudioSeg) : List WordSpan :=
  let ws := segWords scfg info
  if ws.isEmpty then []
  else assignSpans ((info.end_time - info.start_time) / (ws.length : ℚ))
    info.start_time ws

/-- The full `all_words` list of `generate_srt`. -/
def allWords (scfg : SrtCfg) (infos : List AudioSeg) : List WordSpan :=
  (adjustInfos infos).flatMap (segSpans scfg)

/-- Python float `%` for a positive modulus: `a - b * floor(a / b)`. -/
def pymod (a b : ℚ) : ℚ :=
  a - b * (⌊a / b⌋ : ℤ)

/-- Python's `f"...:0Nd"` formatting: decimal digits zero-padded on
the left to a minimum width (wider numbers keep all their digits). -/
def padNum (w n : Nat) : String :=
  String.mk (List.replicate (w - (toString n).length) '0') ++ toString n

/-- `SRTGenerator._format_time`, lines 305-312:
`HH:MM:SS,mmm` with `int`-truncated fields.  `Int.toNat` agrees with
Python's `int()` truncation on the nonnegative times this receives. -/
def formatTime (t : ℚ) : String :=
  padNum 2 (⌊t / 3600⌋).toNat ++ ":" ++ padNum 2 (⌊pymod t 3600 / 60⌋).toNat ++ ":"
    ++ padNum 2 (⌊pymod t 60⌋).toNat ++ ","
    ++ padNum 3 (⌊(pymod t 60 - (⌊pymod t 60⌋ : ℤ)) * 1000⌋).toNat

/-- One numbered block of the written SRT file (lines 109-120 of
`srt_generator.py`): its number, the two formatted times of its
`start --> end` line, and its text line. -/
structure SrtBlock where
  num : Nat
  startS : String
  endS : String
  text : String
deriving Repr, DecidableEq

/-- `SRTGenerator.generate_srt`, lines 23-123, as the list of blocks
written to `temp/subtitles.srt`: the words of the adjusted segments,
enumerated from 1. -/
def generate_srt (scfg : SrtCfg) (infos : List AudioSeg) : List SrtBlock :=
  (List.enumFrom 1 (allWords scfg infos)).map
    (fun p => ⟨p.1, formatTime p.2.start_time, formatTime p.2.end_time, p.2.text⟩)

/-- Well-formed input times: a segment starts no earlier than 0 and
ends no earlier than it starts. -/
def SegOK (i : AudioSeg) : Prop :=
  0 ≤ i.start_time ∧ i.start_time ≤ i.end_time

/-- Zero-padding never shortens below the requested width. -/
theorem padNum_len_ge (w n : Nat) : w ≤ (padNum w n).length := by
  show w ≤ (String.mk (List.replicate (w - (toString n).length) '0') ++ toString n).length
  rw [String.length_append]
  show w ≤ (List.replicate (w - (toString n).length) '0').length + (toString n).length
  rw [List.length_replicate]
  omega

set_option maxRecDepth 4000 in
/-- Two-digit zero-padding yields exactly two characters below 100. -/
theorem padNum2_exact : ∀ n, n < 100 → (padNum 2 n).length = 2 := by decide

set_option maxRecDepth 40000 in
/-- Three-digit zero-padding yields exactly three characters below
1000. -/
theorem padNum3_exact : ∀ n, n < 1000 → (padNum 3 n).length = 3 := by decide

/-- `pymod` in terms of the fractional part. -/
theorem pymod_eq_fract (a b : ℚ) (hb : b ≠ 0) :
    pymod a b = b * Int.fract (a / b) := by
  rw [pymod, Int.fract]
  field_simp

/-- Python `%` with a positive modulus is nonnegative. -/
theorem pymod_nonneg (a b : ℚ) (hb : 0 < b) : 0 ≤ pymod a b := by
  rw [pymod_eq_fract a b (ne_of_gt hb)]
  exact mul_nonneg hb.le (Int.fract_nonneg _)

/-- Python `%` with a positive modulus is below the modulus. -/
theorem pymod_lt (a b : ℚ) (hb : 0 < b) : pymod a b < b := by
  rw [pymod_eq_fract a b (ne_of_gt hb)]
  calc b * Int.fract (a / b) < b * 1 := by
        exact mul_lt_mul_of_pos_left (Int.fract_lt_one _) hb
    _ = b := mul_one b

/-- A well-formed SRT time string: hour, minute, second and
millisecond fields with minutes and seconds below 60 and milliseconds
below 1000, rendered as `H:MM:SS,mmm` with the hours zero-padded to at
least two characters and the other fields to exactly two (or three)
characters. -/
def GoodTimeStr (s : String) : Prop :=
  ∃ hr mn sec ms : Nat, mn < 60 ∧ sec < 60 ∧ ms < 1000 ∧
    s = padNum 2 hr ++ ":" ++ padNum 2 mn ++ ":" ++ padNum 2 sec ++ "," ++ padNum 3 ms ∧
    2 ≤ (padNum 2 hr).length ∧ (padNum 2 mn).length = 2 ∧
    (padNum 2 sec).length = 2 ∧ (padNum 3 ms).length = 3

/-- `_format_time` produces a well-formed SRT time string on every
nonnegative input. -/
theorem formatTime_good (t : ℚ) : GoodTimeStr (formatTime t) := by
  have h3600 : (0:ℚ) < 3600 := by norm_num
  have h60 : (0:ℚ) < 60 := by norm_num
  have hm : (⌊pymod t 3600 / 60⌋ : ℤ) < 60 := by
    apply Int.floor_lt.2
    rw [div_lt_iff₀ h60]
    have := pymod_lt t 3600 h3600
    push_cast
    linarith
  have hsec : (⌊pymod t 60⌋ : ℤ) < 60 := by
    apply Int.floor_lt.2
    have := pymod_lt t 60 h60
    push_cast
    linarith
  have hms : (⌊(pymod t 60 - (⌊pymod t 60⌋ : ℤ)) * 1000⌋ : ℤ) < 1000 := by
    apply Int.floor_lt.2
    have hfr : pymod t 60 - (⌊pymod t 60⌋ : ℤ) < 1 := by
      have := Int.fract_lt_one (pymod t 60)
      rw [Int.fract] at this
      exact this
    push_cast
    nlinarith
  refine ⟨(⌊t / 3600⌋).toNat, (⌊pymod t 3600 / 60⌋).toNat, (⌊pymod t 60⌋).toNat,
    (⌊(pymod t 60 - (⌊pymod t 60⌋ : ℤ)) * 1000⌋).toNat, by omega, by omega, by omega,
    rfl, padNum_len_ge 2 _, padNum2_exact _ (by omega), padNum2_exact _ (by omega),
    padNum3_exact _ (by omega)⟩

/-- Enumerated pairs carry elements of the underlying list. -/
theorem mem_enumFrom_snd {α : Type} :
    ∀ (l : List α) (n : Nat) (p : Nat × α), p ∈ List.enumFrom n l → p.2 ∈ l := by
  intro l
  induction l with
  | nil => intro n p h; cases h
  | cons a as ih =>
    intro n p h
    rw [List.enumFrom] at h
    rcases List.mem_cons.mp h with h | h
    · subst h; exact List.mem_cons_self _ _
    · exact List.mem_cons_of_mem _ (ih (n + 1) p h)

/-- The block numbers written by `generate_srt` (the
`enumerate(all_words, 1)` at line 110 of `srt_generator.py`). -/
theorem generate_srt_nums (scfg : SrtCfg) (infos : List AudioSeg) :
    (generate_srt scfg infos).map (·.num) = List.range' 1 (allWords scfg infos).length := by
  simp only [generate_srt, List.map_map]
  exact List.enumFrom_map_fst 1 _

/-- C4, amended.  The file written by `generate_srt` consists of
blocks numbered exactly `1, 2, ..., n` in order with no gaps, and
every block's `start --> end` line carries two time strings of shape
hours `:` minutes `:` seconds `,` milliseconds with minutes and
seconds below 60 rendered on exactly two digits, truncated
milliseconds below 1000 rendered on exactly three digits, and hours
zero-padded to at least two digits (the hour field widens beyond two
digits from 100 hours on, so it is not always two-digit as
claimed). -/
theorem C4_block_structure (scfg : SrtCfg) (infos : List AudioSeg) :
    (generate_srt scfg infos).map (·.num) = List.range' 1 (allWords scfg infos).length ∧
    ∀ b ∈ generate_srt scfg infos, GoodTimeStr b.startS ∧ GoodTimeStr b.endS := by
  refine ⟨generate_srt_nums scfg infos, ?_⟩
  intro b hb
  rcases List.mem_map.mp hb with ⟨p, _hp, hbp⟩
  subst hbp
  exact ⟨formatTime_good _, formatTime_good _⟩

/-- C4, counterexample to the two-digit-hours part of the claim as
stated: a single one-word segment ending at 360000 seconds (100 hours)
yields an end time whose hour field has three digits. -/
theorem C4_counterexample :
    (generate_srt ⟨true⟩ [⟨"p", "a", 360000, 0, 360000, false, false⟩]).map
        (fun b => b.endS) = ["100:00:00,000"]
  ∧ (("100:00:00,000".toList.takeWhile (fun c => c ≠ ':')).length ≠ 2) := by
  constructor
  · have hf : formatTime 360000 = "100:00:00,000" := by
      rw [formatTime]
      norm_num [pymod]
      decide
    have hw : allWords ⟨true⟩ [⟨"p", "a", 360000, 0, 360000, false, false⟩] =
        [⟨"a", 0, 0 + (360000 - 0) / (((1:Nat) : ℚ))⟩] := by
      rw [allWords, adjustInfos]
      rw [show adjustGo none [(⟨"p", "a", 360000, 0, 360000, false, false⟩ : AudioSeg)]
          = [⟨"p", "a", 360000, 0, 360000, false, false⟩] from rfl]
      simp only [List.flatMap_cons, List.flatMap_nil, List.append_nil]
      rw [segSpans]
      rw [show segWords ⟨true⟩ (⟨"p", "a", 360000, 0, 360000, false, false⟩ : AudioSeg)
          = ["a"] from by decide]
      rw [show (["a"].isEmpty : Bool) = false from rfl, if_neg (by simp)]
      rw [show assignSpans (((360000:ℚ) - 0) / (((["a"].length:Nat)) : ℚ)) 0 ["a"]
          = [⟨"a", 0, 0 + (360000 - 0) / (((["a"].length:Nat)) : ℚ)⟩] from rfl]
      simp
    have harg : (0:ℚ) + (360000 - 0) / (((1:Nat) : ℚ)) = 360000 := by norm_num
    rw [generate_srt, hw, harg]
    simp [List.enumFrom, hf]
  · decide

/-- `assignSpans` yields one span per word. -/
theorem assignSpans_length :
    ∀ (ws : List String) (wd t : ℚ), (assignSpans wd t ws).length = ws.length := by
  intro ws
  induction ws with
  | nil => intro wd t; rfl
  | cons x xs ih => intro wd t; rw [assignSpans]; simp [ih]

/-- The `j`-th span starts at `t + j·wd` and ends at `t + (j+1)·wd`. -/
theorem assignSpans_get :
    ∀ (ws : List String) (wd t : ℚ) (j : Nat) (w : String), ws.get? j = some w →
      (assignSpans wd t ws).get? j = some ⟨w, t + j * wd, t + (j + 1) * wd⟩ := by
  intro ws
  induction ws with
  | nil => intro wd t j w h; cases h
  | cons x xs ih =>
    intro wd t j w h
    cases j with
    | zero =>
      rw [List.get?_cons_zero] at h
      injection h with h
      subst h
      rw [assignSpans, List.get?_cons_zero]
      norm_num
    | succ n =>
      rw [List.get?_cons_succ] at h
      rw [assignSpans, List.get?_cons_succ, ih wd (t + wd) n w h]
      simp only [Option.some.injEq, WordSpan.mk.injEq, true_and]
      constructor <;> (push_cast; ring)

/-- C8, confirmed.  With `word_by_word` enabled, the spans a segment
contributes to the SRT file uniformly partition its interval: there
is one span per word, the `j`-th span runs from
`start + j·(end-start)/k` to `start + (j+1)·(end-start)/k`, the first
span starts at the segment's `start_time`, consecutive spans are
contiguous, and the last span ends exactly at the segment's
`end_time`. -/
theorem C8_uniform_word_timing (scfg : SrtCfg) (info : AudioSeg) (k : Nat)
    (hw : scfg.word_by_word = true) (hk : (splitWords info.text).length = k)
    (h1 : 1 ≤ k) :
    (segSpans scfg info).length = k ∧
    (∀ j w, (splitWords info.text).get? j = some w →
      (segSpans scfg info).get? j = some
        ⟨w, info.start_time + j * ((info.end_time - info.start_time) / (k : ℚ)),
            info.start_time + (j + 1) * ((info.end_time - info.start_time) / (k : ℚ))⟩) ∧
    (∀ sp, (segSpans scfg info).get? 0 = some sp → sp.start_time = info.start_time) ∧
    (∀ sp, (segSpans scfg info).get? (k - 1) = some sp → sp.end_time = info.end_time) ∧
    (∀ j sp sp', (segSpans scfg info).get? j = some sp →
      (segSpans scfg info).get? (j + 1) = some sp' → sp.end_time = sp'.start_time) := by
  have hk0 : ((k : ℚ)) ≠ 0 := by
    have : (0:ℚ) < (k : ℚ) := by exact_mod_cast h1
    exact ne_of_gt this
  have hne : ((splitWords info.text).isEmpty : Bool) = false := by
    cases hws : splitWords info.text with
    | nil => rw [hws] at hk; simp at hk; omega
    | cons x xs => simp
  have hseg : segSpans scfg info =
      assignSpans ((info.end_time - info.start_time) / (k : ℚ)) info.start_time
        (splitWords info.text) := by
    simp only [segSpans, segWords, hw, ite_true, hne, Bool.false_eq_true, ite_false, hk]
  refine ⟨?_, ?_, ?_, ?_, ?_⟩
  · rw [hseg, assignSpans_length, hk]
  · intro j w h
    rw [hseg]
    exact assignSpans_get _ _ _ j w h
  · intro sp hsp
    have hx : ∃ w, (splitWords info.text).get? 0 = some w := by
      cases hws : splitWords info.text with
      | nil => rw [hws] at hk; simp at hk; omega
      | cons x xs => exact ⟨x, rfl⟩
    rcases hx with ⟨w, hw0⟩
    rw [hseg, assignSpans_get _ _ _ 0 w hw0] at hsp
    injection hsp with hsp
    subst hsp
    norm_num
  · intro sp hsp
    have hx : ∃ w, (splitWords info.text).get? (k - 1) = some w := by
      have hlt : k - 1 < (splitWords info.text).length := by omega
      exact ⟨(splitWords info.text).get ⟨k - 1, hlt⟩, List.get?_eq_get hlt⟩
    rcases hx with ⟨w, hwk⟩
    rw [hseg, assignSpans_get _ _ _ (k - 1) w hwk] at hsp
    injection hsp with hsp
    subst hsp
    show info.start_time + (((k - 1 : Nat) : ℚ) + 1) *
        ((info.end_time - info.start_time) / (k : ℚ)) = info.end_time
    have hcast : ((k - 1 : Nat) : ℚ) + 1 = (k : ℚ) := by
      have : ((k - 1 : Nat) : ℚ) = (k : ℚ) - 1 := by
        push_cast [Nat.cast_sub h1]
        ring
      rw [this]; ring
    rw [hcast]
    field_simp
  · intro j sp sp' hsp hsp'
    have hlen : j + 1 < (assignSpans ((info.end_time - info.start_time) / (k : ℚ))
        info.start_time (splitWords info.text)).length := by
      rw [← hseg]
      exact (List.get?_eq_some.mp hsp').1
    rw [assignSpans_length] at hlen
    have hw1 : ∃ w, (splitWords info.text).get? j = some w :=
      ⟨(splitWords info.text).get ⟨j, by omega⟩, List.get?_eq_get (by omega)⟩
    have hw2 : ∃ w, (splitWords info.text).get? (j + 1) = some w :=
      ⟨(splitWords info.text).get ⟨j + 1, by omega⟩, List.get?_eq_get (by omega)⟩
    rcases hw1 with ⟨w1, hww1⟩
    rcases hw2 with ⟨w2, hww2⟩
    rw [hseg, assignSpans_get _ _ _ j w1 hww1] at hsp
    rw [hseg, assignSpans_get _ _ _ (j + 1) w2 hww2] at hsp'
    injection hsp with hsp
    injection hsp' with hsp'
    subst hsp
    subst hsp'
    push_cast
    ring

/-- C8, witness: the theorem applied to a concrete two-word segment
running from 0 to 4 seconds. -/
theorem C8_witness :
    (segSpans ⟨true⟩ ⟨"p", "a b", 4, 0, 4, true, false⟩).length = 2 ∧
    (∀ j w, (splitWords "a b").get? j = some w →
      (segSpans ⟨true⟩ ⟨"p", "a b", 4, 0, 4, true, false⟩).get? j = some
        ⟨w, 0 + j * ((4 - 0) / ((2 : Nat) : ℚ)), 0 + (j + 1) * ((4 - 0) / ((2 : Nat) : ℚ))⟩) ∧
    (∀ sp, (segSpans ⟨true⟩ ⟨"p", "a b", 4, 0, 4, true, false⟩).get? 0 = some sp →
      sp.start_time = 0) ∧
    (∀ sp, (segSpans ⟨true⟩ ⟨"p", "a b", 4, 0, 4, true, false⟩).get? (2 - 1) = some sp →
      sp.end_time = 4) ∧
    (∀ j sp sp', (segSpans ⟨true⟩ ⟨"p", "a b", 4, 0, 4, true, false⟩).get? j = some sp →
      (segSpans ⟨true⟩ ⟨"p", "a b", 4, 0, 4, true, false⟩).get? (j + 1) = some sp' →
      sp.end_time = sp'.start_time) :=
  C8_uniform_word_timing ⟨true⟩ ⟨"p", "a b", 4, 0, 4, true, false⟩ 2 rfl (by decide)
    (by decide)

/-! ## Pipeline orchestration (`main.py`) and concatenation
(`video_creator.py` lines 480-618) -/

/-- Configuration switches `generate_video` reads:
`config["subtitles"]["enabled"]`, `config["subtitles"]["use_whisperx"]`
and (through `SRTGenerator`) `word_by_word`. -/
structure PipeCfg where
  subtitles_enabled : Bool
  use_whisperx : Bool
  word_by_word : Bool
deriving Repr, DecidableEq

/-- Trace events of the pipeline stages, in execution order. -/
inductive Ev
  | themeSel
  | ttsEv (i : Nat)
  | createEv (i : Nat)
  | srtEv
  | concatEv
  | saveEv
deriving Repr, DecidableEq

/-- External effects `concatenate_videos` performs, as oracles: SRT
file existence (line 523), building and compositing the subtitle track
(lines 525-543), preparing the background video (lines 577-597), and
`write_videofile` (lines 602-610). -/
structure ConcatDeps where
  srtFileExists : String → Bool
  subtitleOp : String → Except String Unit
  bgOp : Except String Unit
  writeOp : Except String Unit

/-- Observable outcome of `concatenate_videos`: the output path, the
clips concatenated, and whether the subtitle track and the background
were actually composited. -/
structure ConcatOut where
  outPath : String
  clipsUsed : List String
  subtitlesBurned : Bool
  backgroundApplied : Bool
deriving Repr, DecidableEq

/-- `VideoCreator.concatenate_videos`, lines 480-618.  Subtitles are
composited only when enabled in the configuration, an SRT path was
passed and the file exists; a failure while adding them is caught at
lines 544-545, logged, and the method goes on without subtitles.  A
failure preparing the background is caught at lines 598-600 and the
method goes on without the background.  A failure of
`write_videofile` (or an empty clip list, line 513) propagates through
the outer `except` at lines 616-618, which logs and re-raises. -/
def concatenate_videos (enabled : Bool) (deps : ConcatDeps) (clips : List String)
    (srt_file : Option String) (outPath : String) : Except String ConcatOut :=
  if clips.isEmpty then .error "Aucun clip video valide"
  else
    let burned :=
      if enabled then
        match srt_file with
        | some f =>
          if deps.srtFileExists f then
            match deps.subtitleOp f with
            | .ok _ => true
            | .error _ => false
          else false
        | none => false
      else false
    let bg :=
      match deps.bgOp with
      | .ok _ => true
      | .error _ => false
    match deps.writeOp with
    | .error e => .error e
    | .ok _ => .ok ⟨outPath, clips, burned, bg⟩

/-- The per-question timing loop of `main.py`, lines 89-97: each audio
entry gets `start_time`/`end_time` from the running offset, and 3
seconds of timer are inserted after a question entry that is
immediately followed by an answer entry. -/
def assignTimes : ℚ → List AudioSeg → List AudioSeg × ℚ
  | t, [] => ([], t)
  | t, info :: rest =>
    let e := t + info.duration
    let t1 :=
      if info.is_question && (match rest.head? with
          | some nxt => nxt.is_answer
          | none => false) then e + 3
      else e
    let pr := assignTimes t1 rest
    ({info with start_time := t, end_time := e} :: pr.1, pr.2)

/-- The external stages `generate_video` calls, as oracles: question
generation, per-question TTS, per-question video creation, and the
WhisperX transcription used when `use_whisperx` is set. -/
structure PipelineOracles where
  genQuestions : Except String (List OutQuestion)
  tts : Nat → OutQuestion → Except String (List AudioSeg)
  createVid : Nat → OutQuestion → List AudioSeg → Except String String
  whisperx : List AudioSeg → Except String String

/-- The per-question loop of `generate_video` (`main.py` lines
81-104): TTS, timing assignment, then video creation, accumulating
clips, audio infos and the trace of stage events. -/
def loopQ (or : PipelineOracles) :
    Nat → ℚ → List OutQuestion → Except String (List String × List AudioSeg) × List Ev
  | _, _, [] => (.ok ([], []), [])
  | k, t, q :: qs =>
    match or.tts k q with
    | .error e => (.error e, [.ttsEv k])
    | .ok infos =>
      let pr := assignTimes t infos
      match or.createVid k q pr.1 with
      | .error e => (.error e, [.ttsEv k, .createEv k])
      | .ok clip =>
        let r := loopQ or (k + 1) pr.2 qs
        (r.1.map (fun p => (clip :: p.1, pr.1 ++ p.2)), .ttsEv k :: .createEv k :: r.2)

/-- Result of a successful `generate_video`: the saved path returned
at line 136 of `main.py`, plus the observable concatenation outcome. -/
structure PipeOut where
  saved : String
  concat : ConcatOut
deriving Repr, DecidableEq

/-- `VideoGenerator.generate_video`, `main.py` lines 65-140, with its
stage-event trace.  Stages run strictly in order: theme, then per
question TTS and video creation, then (only when subtitles are
enabled) SRT generation — the uniform-split `generate_srt` writes to
`srtPath`, or the WhisperX oracle is used — then concatenation (with
the SRT path exactly when subtitles are enabled), then storage.  The
outer `try/except` logs and re-raises, so every stage error is the
result.  The `cleanup` calls at lines 133-134 touch only temporary
files and are not modelled. -/
def generate_video_model (cfg : PipeCfg) (or : PipelineOracles) (cdeps : ConcatDeps)
    (srtPath outPath : String) (saveOp : String → Except String String) :
    Except String PipeOut × List Ev :=
  match or.genQuestions with
  | .error e => (.error e, [.themeSel])
  | .ok qs =>
    let lr := loopQ or 1 0 qs
    match lr.1 with
    | .error e => (.error e, .themeSel :: lr.2)
    | .ok (clips, allInfos) =>
      if cfg.subtitles_enabled then
        match (if cfg.use_whisperx then or.whisperx allInfos else .ok srtPath) with
        | .error e => (.error e, .themeSel :: lr.2 ++ [.srtEv])
        | .ok srtF =>
          match concatenate_videos cfg.subtitles_enabled cdeps clips (some srtF) outPath with
          | .error e => (.error e, .themeSel :: lr.2 ++ [.srtEv, .concatEv])
          | .ok co =>
            match saveOp co.outPath with
            | .error e => (.error e, .themeSel :: lr.2 ++ [.srtEv, .concatEv, .saveEv])
            | .ok saved => (.ok ⟨saved, co⟩, .themeSel :: lr.2 ++ [.srtEv, .concatEv, .saveEv])
      else
        match concatenate_videos cfg.subtitles_enabled cdeps clips none outPath with
        | .error e => (.error e, .themeSel :: lr.2 ++ [.concatEv])
        | .ok co =>
          match saveOp co.outPath with
          | .error e => (.error e, .themeSel :: lr.2 ++ [.concatEv, .saveEv])
          | .ok saved => (.ok ⟨saved, co⟩, .themeSel :: lr.2 ++ [.concatEv, .saveEv])

/-- The canonical per-question stage trace: TTS then video creation
for each question in turn. -/
def qTrace : Nat → Nat → List Ev
  | _, 0 => []
  | k, n + 1 => .ttsEv k :: .createEv k :: qTrace (k + 1) n

/-- When the per-question loop succeeds its trace is the canonical
alternation of TTS and video-creation events. -/
theorem loopQ_ok_trace (or : PipelineOracles) :
    ∀ (qs : List OutQuestion) (k : Nat) (t : ℚ) (pr : List String × List AudioSeg),
      (loopQ or k t qs).1 = .ok pr → (loopQ or k t qs).2 = qTrace k qs.length := by
  intro qs
  induction qs with
  | nil => intro k t pr _h; rfl
  | cons q qs ih =>
    intro k t pr h
    rw [loopQ] at h ⊢
    cases htts : or.tts k q with
    | error e => rw [htts] at h; exact absurd h (by simp)
    | ok infos =>
      rw [htts] at h
      dsimp only at h ⊢
      cases hcv : or.createVid k q (assignTimes t infos).1 with
      | error e => rw [hcv] at h; exact absurd h (by simp)
      | ok clip =>
        rw [hcv] at h
        dsimp only at h ⊢
        cases hr : (loopQ or (k + 1) (assignTimes t infos).2 qs).1 with
        | error e => rw [hr] at h; exact absurd h (by simp [Except.map])
        | ok p =>
          rw [List.length_cons, qTrace, ih (k + 1) (assignTimes t infos).2 p hr]

/-- The per-question loop never emits an SRT event. -/
theorem loopQ_no_srt (or : PipelineOracles) :
    ∀ (qs : List OutQuestion) (k : Nat) (t : ℚ), Ev.srtEv ∉ (loopQ or k t qs).2 := by
  intro qs
  induction qs with
  | nil => intro k t; simp [loopQ]
  | cons q qs ih =>
    intro k t
    rw [loopQ]
    cases htts : or.tts k q with
    | error e => simp
    | ok infos =>
      dsimp only
      cases hcv : or.createVid k q (assignTimes t infos).1 with
      | error e => simp
      | ok clip =>
        dsimp only
        have := ih (k + 1) (assignTimes t infos).2
        simp
        exact fun h => this h

/-- C10, confirmed for its statable half.  Whenever `generate_video`
succeeds, its stage trace is exactly: theme selection, then for each
question in order its TTS synthesis immediately followed by its video
creation, then SRT generation exactly when subtitles are enabled, then
concatenation, then storage — one stage strictly after another. -/
theorem C10_sequential_stages (cfg : PipeCfg) (or : PipelineOracles) (cdeps : ConcatDeps)
    (srtPath outPath : String) (saveOp : String → Except String String)
    (qs : List OutQuestion) (out : PipeOut)
    (hq : or.genQuestions = .ok qs)
    (hok : (generate_video_model cfg or cdeps srtPath outPath saveOp).1 = .ok out) :
    (generate_video_model cfg or cdeps srtPath outPath saveOp).2 =
      .themeSel :: (qTrace 1 qs.length ++
        ((if cfg.subtitles_enabled then [Ev.srtEv] else []) ++ [Ev.concatEv, Ev.saveEv])) := by
  rw [generate_video_model] at hok ⊢
  rw [hq] at hok ⊢
  dsimp only at hok ⊢
  cases hlr : (loopQ or 1 0 qs).1 with
  | error e => rw [hlr] at hok; exact absurd hok (by simp)
  | ok p =>
    rw [hlr] at hok
    obtain ⟨clips, allInfos⟩ := p
    dsimp only at hok ⊢
    have htr := loopQ_ok_trace or qs 1 0 (clips, allInfos) hlr
    by_cases hen : cfg.subtitles_enabled
    · simp only [hen, eq_self_iff_true, if_true] at hok ⊢
      cases hsrt : (if cfg.use_whisperx then or.whisperx allInfos else .ok srtPath) with
      | error e => rw [hsrt] at hok; exact absurd hok (by simp)
      | ok srtF =>
        rw [hsrt] at hok
        dsimp only at hok ⊢
        cases hcc : concatenate_videos true cdeps clips (some srtF) outPath with
        | error e => rw [hcc] at hok; exact absurd hok (by simp)
        | ok co =>
          rw [hcc] at hok
          dsimp only at hok ⊢
          cases hsv : saveOp co.outPath with
          | error e => rw [hsv] at hok; exact absurd hok (by simp)
          | ok saved =>
            dsimp only
            rw [htr]
            simp
    · rw [Bool.not_eq_true] at hen
      simp only [hen, Bool.false_eq_true, if_false] at hok ⊢
      cases hcc : concatenate_videos false cdeps clips none outPath with
      | error e => rw [hcc] at hok; exact absurd hok (by simp)
      | ok co =>
        rw [hcc] at hok
        dsimp only at hok ⊢
        cases hsv : saveOp co.outPath with
        | error e => rw [hsv] at hok; exact absurd hok (by simp)
        | ok saved =>
          dsimp only
          rw [htr]
          simp

/-- Pipeline oracles for a concrete successful run: one question, TTS
returning no audio entries, every later stage succeeding. -/
def c10Or : PipelineOracles :=
  ⟨.ok [c2Q], fun _ _ => .ok [], fun _ _ _ => .ok "clip1", fun _ => .error "no whisperx"⟩

/-- Concatenation oracles in which every external step succeeds. -/
def c10Deps : ConcatDeps :=
  ⟨fun _ => true, fun _ => .ok (), .ok (), .ok ()⟩

/-- C10, witness: the trace theorem applied to a concrete successful
run with subtitles disabled. -/
theorem C10_witness :
    (generate_video_model ⟨false, false, true⟩ c10Or c10Deps "s.srt" "out.mp4"
        (fun p => .ok p)).2 =
      .themeSel :: (qTrace 1 [c2Q].length ++
        ((if (⟨false, false, true⟩ : PipeCfg).subtitles_enabled then [Ev.srtEv] else []) ++
          [Ev.concatEv, Ev.saveEv])) :=
  C10_sequential_stages ⟨false, false, true⟩ c10Or c10Deps "s.srt" "out.mp4"
    (fun p => .ok p) [c2Q] ⟨"out.mp4", ⟨"out.mp4", ["clip1"], false, true⟩⟩ rfl (by decide)

/-- C3, amended.  Stage-level errors do propagate: a failure of
question generation or of the first TTS call becomes the result of
`generate_video` (conjuncts 1-2), and a `write_videofile` failure
becomes the result of `concatenate_videos` (conjunct 4).  But not
every exception raised inside a stage is re-raised: when compositing
the subtitle track fails inside `concatenate_videos`, the exception is
caught at lines 544-545 of `video_creator.py`, logged, and converted
into a normal return without subtitles (conjunct 3); the
background-preparation `except` at lines 598-600 behaves the same
way. -/
theorem C3_error_propagation (cfg : PipeCfg) (or : PipelineOracles) (cdeps : ConcatDeps)
    (srtPath outPath : String) (saveOp : String → Except String String) :
    (∀ e, or.genQuestions = .error e →
      (generate_video_model cfg or cdeps srtPath outPath saveOp).1 = .error e)
  ∧ (∀ e q qs, or.genQuestions = .ok (q :: qs) → or.tts 1 q = .error e →
      (generate_video_model cfg or cdeps srtPath outPath saveOp).1 = .error e)
  ∧ (∀ (deps : ConcatDeps) (clips : List String) (f p m : String), clips ≠ [] →
      deps.srtFileExists f = true → deps.subtitleOp f = .error m →
      deps.bgOp = .ok () → deps.writeOp = .ok () →
      concatenate_videos true deps clips (some f) p = .ok ⟨p, clips, false, true⟩)
  ∧ (∀ (en : Bool) (deps : ConcatDeps) (clips : List String)
      (sf : Option String) (p e : String), clips ≠ [] → deps.writeOp = .error e →
      concatenate_videos en deps clips sf p = .error e) := by
  refine ⟨?_, ?_, ?_, ?_⟩
  · intro e h
    rw [generate_video_model, h]
  · intro e q qs hq htts
    rw [generate_video_model, hq]
    dsimp only
    have hl : (loopQ or 1 0 (q :: qs)).1 = .error e := by
      rw [loopQ, htts]
    rw [hl]
  · intro deps clips f p m hclips hex hsub hbg hwrite
    rw [concatenate_videos.eq_def, if_neg (by simp [hclips])]
    dsimp only
    rw [hex, hsub, hbg, hwrite]
    simp
  · intro en deps clips sf p e hclips hwrite
    rw [concatenate_videos.eq_def, if_neg (by simp [hclips])]
    dsimp only
    rw [hwrite]

/-- Concatenation oracles in which compositing the subtitle track
fails and everything else succeeds. -/
def c3Deps : ConcatDeps :=
  ⟨fun _ => true, fun _ => .error "boom", .ok (), .ok ()⟩

/-- Pipeline oracles whose question-generation stage fails. -/
def c3Or : PipelineOracles :=
  ⟨.error "llm down", fun _ _ => .ok [], fun _ _ _ => .ok "c", fun _ => .ok "w"⟩

/-- C3, counterexample to the claim as stated: with subtitles enabled,
an existing SRT file and a subtitle-compositing step that raises,
`concatenate_videos` returns normally (with `subtitlesBurned = false`)
instead of re-raising the exception to its caller. -/
theorem C3_counterexample :
    c3Deps.subtitleOp "s.srt" = .error "boom"
  ∧ concatenate_videos true c3Deps ["c1"] (some "s.srt") "out.mp4" =
      .ok ⟨"out.mp4", ["c1"], false, true⟩ := by
  exact ⟨rfl, by decide⟩

/-- C3, witness: the amended theorem applied at concrete inputs. -/
theorem C3_witness :
    (generate_video_model ⟨true, false, true⟩ c3Or c10Deps "s.srt" "out.mp4"
        (fun p => .ok p)).1 = .error "llm down"
  ∧ concatenate_videos true c3Deps ["clipA"] (some "sub.srt") "fin.mp4" =
      .ok ⟨"fin.mp4", ["clipA"], false, true⟩ :=
  ⟨(C3_error_propagation ⟨true, false, true⟩ c3Or c10Deps "s.srt" "out.mp4"
      (fun p => .ok p)).1 "llm down" rfl,
   (C3_error_propagation ⟨true, false, true⟩ c3Or c10Deps "s.srt" "out.mp4"
      (fun p => .ok p)).2.2.1 c3Deps ["clipA"] "sub.srt" "fin.mp4" "boom"
      (by decide) rfl rfl rfl rfl⟩

/-- Word characters are not whitespace. -/
theorem isWordChar_not_ws (c : Char) (h : isWordChar c = true) : c.isWhitespace = false := by
  by_contra hc
  rw [Bool.not_eq_false] at hc
  have hd : ((c = ' ' ∨ c = '\t') ∨ c = '\r') ∨ c = '\n' := by
    rw [Char.isWhitespace] at hc
    simpa using hc
  rcases hd with ((rfl | rfl) | rfl) | rfl <;> exact absurd h (by decide)

/-- The trailing punctuation marks are not whitespace. -/
theorem isPunctTail_not_ws (c : Char) (h : isPunctTail c = true) : c.isWhitespace = false := by
  rw [isPunctTail] at h
  simp only [Bool.or_eq_true, decide_eq_true_eq] at h
  rcases h with ((((rfl | rfl) | rfl) | rfl) | rfl) <;> decide

/-- Every character of a `\w+` run is a word character. -/
theorem takeWordRun_run_chars :
    ∀ (cs : List Char) (c : Char), c ∈ (takeWordRun cs).1 → isWordChar c = true := by
  intro cs
  induction cs with
  | nil => intro c h; simp [takeWordRun] at h
  | cons x xs ih =>
    intro c h
    rw [takeWordRun] at h
    by_cases hx : isWordChar x
    · simp only [hx, if_true] at h
      rcases List.mem_cons.mp h with h | h
      · subst h; exact hx
      · exact ih c h
    · simp only [hx, if_false] at h
      simp at h

/-- Every character of every token the scanner produces is
non-whitespace: tokens are single words or punctuation marks. -/
theorem tokenizeFuel_token_chars :
    ∀ (fuel : Nat) (cs : List Char) (t : List Char), t ∈ tokenizeFuel fuel cs →
      ∀ c ∈ t, c.isWhitespace = false := by
  intro fuel
  induction fuel with
  | zero => intro cs t ht; simp [tokenizeFuel] at ht
  | succ n ih =>
    intro cs t ht c hc
    cases cs with
    | nil => simp [tokenizeFuel] at ht
    | cons x xs =>
      rw [tokenizeFuel] at ht
      by_cases hx : isWordChar x
      · simp only [hx, if_true] at ht
        cases hrest : (takeWordRun xs).2 with
        | nil =>
          rw [hrest] at ht
          dsimp only at ht
          rcases List.mem_singleton.mp ht with rfl
          rcases List.mem_cons.mp hc with rfl | hc
          · exact isWordChar_not_ws c hx
          · exact isWordChar_not_ws c (takeWordRun_run_chars xs c hc)
        | cons pc rest' =>
          rw [hrest] at ht
          dsimp only at ht
          by_cases hpc : isPunctTail pc
          · simp only [hpc, if_true] at ht
            rcases List.mem_cons.mp ht with rfl | ht
            · rcases List.mem_cons.mp hc with rfl | hc
              · exact isWordChar_not_ws c hx
              · rcases List.mem_append.mp hc with hc | hc
                · exact isWordChar_not_ws c (takeWordRun_run_chars xs c hc)
                · rcases List.mem_singleton.mp hc with rfl
                  exact isPunctTail_not_ws c hpc
            · exact ih rest' t ht c hc
          · simp only [hpc, if_false] at ht
            rcases List.mem_cons.mp ht with rfl | ht
            · rcases List.mem_cons.mp hc with rfl | hc
              · exact isWordChar_not_ws c hx
              · exact isWordChar_not_ws c (takeWordRun_run_chars xs c hc)
            · exact ih (pc :: rest') t ht c hc
      · simp only [hx, if_false] at ht
        by_cases hws : x.isWhitespace
        · simp only [hws, Bool.not_true, if_false] at ht
          exact ih xs t ht c hc
        · rw [Bool.not_eq_true] at hws
          simp only [hws, Bool.not_false, if_true] at ht
          rcases List.mem_cons.mp ht with rfl | ht
          · rcases List.mem_singleton.mp hc with rfl
            exact hws
          · exact ih xs t ht c hc

/-- Every entry of `_split_text_into_words` is a nonempty,
whitespace-free token: one word (or one punctuation mark). -/
theorem splitWords_tokens (t w : String) (hw : w ∈ splitWords t) :
    w ≠ "" ∧ (w.toList.all fun c => !c.isWhitespace) = true := by
  rw [splitWords] at hw
  rcases List.mem_filter.mp hw with ⟨hmem, hpred⟩
  rcases List.mem_map.mp hmem with ⟨cs, hcs, hcsw⟩
  subst hcsw
  rw [tokenize] at hcs
  constructor
  · intro hmk
    have hcsnil : cs = [] := by
      have := congrArg String.toList hmk
      simpa using this
    subst hcsnil
    exact absurd hpred (by decide)
  · show (cs.all fun c => !c.isWhitespace) = true
    rw [List.all_eq_true]
    intro c hc
    have := tokenizeFuel_token_chars (t.toList.length) t.toList cs hcs c hc
    simp [this]

/-- Each span keeps the word it was assigned. -/
theorem assignSpans_texts :
    ∀ (ws : List String) (wd t : ℚ), (assignSpans wd t ws).map (·.text) = ws := by
  intro ws
  induction ws with
  | nil => intro wd t; rfl
  | cons x xs ih => intro wd t; rw [assignSpans]; simp [ih]

/-- With `word_by_word` enabled a segment's spans carry exactly its
split words, in order. -/
theorem segSpans_texts_word (scfg : SrtCfg) (i : AudioSeg)
    (hw : scfg.word_by_word = true) :
    (segSpans scfg i).map (·.text) = splitWords i.text := by
  simp only [segSpans, segWords, hw, ite_true]
  by_cases hni : (splitWords i.text).isEmpty
  · rw [if_pos hni]
    rw [List.isEmpty_iff] at hni
    rw [hni]
    rfl
  · rw [if_neg hni, assignSpans_texts]

/-- The subtitle flag of a concatenation outcome, reset: what the
output would record had no subtitles been composited. -/
def eraseSub (o : ConcatOut) : ConcatOut :=
  { o with subtitlesBurned := false }

/-- With subtitles disabled a successful concatenation never burns
subtitles. -/
theorem concatenate_videos_disabled (deps : ConcatDeps) (clips : List String)
    (sf : Option String) (p : String) (co : ConcatOut)
    (h : concatenate_videos false deps clips sf p = .ok co) :
    co.subtitlesBurned = false := by
  rw [concatenate_videos.eq_def] at h
  by_cases hc : clips.isEmpty
  · rw [if_pos hc] at h; exact absurd h (by simp)
  · rw [if_neg hc] at h
    dsimp only at h
    cases hwr : deps.writeOp with
    | error e => rw [hwr] at h; exact absurd h (by simp)
    | ok u => rw [hwr] at h; cases h; rfl


/-- C5, confirmed.  Subtitles are optional and word-level: with the
feature disabled the pipeline emits no SRT stage, concatenation runs
with no SRT file and a successful run has no subtitles burned in, and
the concatenation outcome differs from the enabled one in nothing but
the subtitle flag; with the default `word_by_word` mode the SRT blocks
carry, in order, exactly the split words of the narrated texts, each a
single nonempty whitespace-free token. -/
theorem C5_subtitles_optional_word_level (cfg : PipeCfg) (or : PipelineOracles)
    (cdeps : ConcatDeps) (srtPath outPath : String)
    (saveOp : String → Except String String) :
    (cfg.subtitles_enabled = false →
      Ev.srtEv ∉ (generate_video_model cfg or cdeps srtPath outPath saveOp).2)
  ∧ (cfg.subtitles_enabled = false → ∀ out,
      (generate_video_model cfg or cdeps srtPath outPath saveOp).1 = .ok out →
      out.concat.subtitlesBurned = false)
  ∧ (∀ (deps : ConcatDeps) (clips : List String) (sf : Option String) (p : String),
      (concatenate_videos true deps clips sf p).map eraseSub =
        concatenate_videos false deps clips none p)
  ∧ (∀ (scfg : SrtCfg) (infos : List AudioSeg), scfg.word_by_word = true →
      (generate_srt scfg infos).map (fun b => b.text) =
        (adjustInfos infos).flatMap (fun i => splitWords i.text))
  ∧ (∀ t w, w ∈ splitWords t →
      w ≠ "" ∧ (w.toList.all fun c => !c.isWhitespace) = true) := by
  refine ⟨?_, ?_, ?_, ?_, splitWords_tokens⟩
  · intro hen
    rw [generate_video_model]
    cases hg : or.genQuestions with
    | error e => simp
    | ok qs =>
      dsimp only
      have hno := loopQ_no_srt or qs 1 0
      cases hlr : (loopQ or 1 0 qs).1 with
      | error e => simp [hno]
      | ok p =>
        obtain ⟨clips, allInfos⟩ := p
        dsimp only
        simp only [hen, Bool.false_eq_true, if_false]
        cases hcc : concatenate_videos false cdeps clips none outPath with
        | error e => simp [hno]
        | ok co =>
          dsimp only
          cases hsv : saveOp co.outPath with
          | error e => simp [hno]
          | ok saved => simp [hno]
  · intro hen out hok
    rw [generate_video_model] at hok
    cases hg : or.genQuestions with
    | error e => rw [hg] at hok; exact absurd hok (by simp)
    | ok qs =>
      rw [hg] at hok
      dsimp only at hok
      cases hlr : (loopQ or 1 0 qs).1 with
      | error e => rw [hlr] at hok; exact absurd hok (by simp)
      | ok p =>
        rw [hlr] at hok
        obtain ⟨clips, allInfos⟩ := p
        dsimp only at hok
        simp only [hen, Bool.false_eq_true, if_false] at hok
        cases hcc : concatenate_videos false cdeps clips none outPath with
        | error e => rw [hcc] at hok; exact absurd hok (by simp)
        | ok co =>
          rw [hcc] at hok
          dsimp only at hok
          cases hsv : saveOp co.outPath with
          | error e => rw [hsv] at hok; exact absurd hok (by simp)
          | ok saved =>
            rw [hsv] at hok
            dsimp only at hok
            cases hok
            exact concatenate_videos_disabled cdeps clips none outPath co hcc
  · intro deps clips sf p
    rw [concatenate_videos.eq_def, concatenate_videos.eq_def]
    by_cases hc : clips.isEmpty
    · rw [if_pos hc, if_pos hc]
      simp [Except.map]
    · rw [if_neg hc, if_neg hc]
      dsimp only
      cases hwr : deps.writeOp with
      | error e => simp [Except.map]
      | ok u => simp [Except.map, eraseSub]
  · intro scfg infos hw
    simp only [generate_srt, List.map_map]
    have h1 : ((fun b : SrtBlock => b.text) ∘ fun p : Nat × WordSpan =>
        (⟨p.1, formatTime p.2.start_time, formatTime p.2.end_time, p.2.text⟩ : SrtBlock)) =
        ((fun b : WordSpan => b.text) ∘ Prod.snd) := rfl
    rw [h1, ← List.map_map, List.enumFrom_map_snd]
    rw [allWords, List.map_flatMap]
    have h3 : (fun i => (segSpans scfg i).map (fun b => b.text)) =
        fun i => splitWords i.text :=
      funext (fun i => segSpans_texts_word scfg i hw)
    rw [h3]

/-- C5, witness: the theorem applied to the concrete disabled-subtitle
run and to a concrete two-word text. -/
theorem C5_witness :
    Ev.srtEv ∉ (generate_video_model ⟨false, false, true⟩ c10Or c10Deps "s.srt" "out.mp4"
        (fun p => .ok p)).2
  ∧ (⟨"out.mp4", ⟨"out.mp4", ["clip1"], false, true⟩⟩ : PipeOut).concat.subtitlesBurned = false
  ∧ ("a" ≠ "" ∧ (("a" : String).toList.all fun c => !c.isWhitespace) = true) :=
  ⟨(C5_subtitles_optional_word_level ⟨false, false, true⟩ c10Or c10Deps "s.srt" "out.mp4"
      (fun p => .ok p)).1 rfl,
   (C5_subtitles_optional_word_level ⟨false, false, true⟩ c10Or c10Deps "s.srt" "out.mp4"
      (fun p => .ok p)).2.1 rfl ⟨"out.mp4", ⟨"out.mp4", ["clip1"], false, true⟩⟩ (by decide),
   (C5_subtitles_optional_word_level ⟨false, false, true⟩ c10Or c10Deps "s.srt" "out.mp4"
      (fun p => .ok p)).2.2.2.2 "a b" "a" (by decide)⟩


/-! ## Storage (`src/storage.py`) -/

/-- Configuration fields `StorageManager` reads:
`config["storage"]["local_path"]` and
`config["storage"]["cloud_provider"]`. -/
structure StorageCfg where
  local_path : String
  cloud_provider : String
deriving Repr, DecidableEq

/-- A cloud upload performed by `save_video`: the bucket and the
object key. -/
inductive CloudOp
  | s3Up (bucket key : String)
  | gcsUp (bucket key : String)
deriving Repr, DecidableEq

/-- External effects of `save_video` as oracles: the local
`Path.rename` and the two SDK uploads, plus the bucket names read from
the environment in `_init_cloud_clients`. -/
structure SaveDeps where
  renameRes : Except String Unit
  s3Res : Except String Unit
  gcsRes : Except String Unit
  awsBucket : String
  gcsBucket : String

/-- `Path(p).name` for a POSIX file path: the part after the last
slash. -/
def basenameOf (p : String) : String :=
  String.mk (p.toList.foldl (fun acc c => if c = '/' then [] else acc ++ [c]) [])

/-- Lines 54-56 of `storage.py`: `if not filename` — `None` and the
empty string both fall back to the basename of the input path. -/
def chosenFilename (video_path : String) (filename : Option String) : String :=
  match filename with
  | some f => if f = "" then basenameOf video_path else f
  | none => basenameOf video_path

/-- `StorageManager.save_video`, lines 42-78: move the file into the
local storage directory, then upload to S3 under `videos/<filename>`
when the provider is `"aws"`, to GCS under `videos/<filename>` when it
is `"gcp"`, and nowhere otherwise; return the local path and the trace
of cloud uploads.  Any failure is wrapped into the generic `Exception`
of line 78. -/
def save_video (cfg : StorageCfg) (deps : SaveDeps) (video_path : String)
    (filename : Option String) : Except String (String × List CloudOp) :=
  let fname := chosenFilename video_path filename
  let localP := cfg.local_path ++ "/" ++ fname
  match deps.renameRes with
  | .error e => .error ("Erreur lors de la sauvegarde de la video: " ++ e)
  | .ok _ =>
    if cfg.cloud_provider = "aws" then
      match deps.s3Res with
      | .error e => .error ("Erreur lors de la sauvegarde de la video: " ++ e)
      | .ok _ => .ok (localP, [.s3Up deps.awsBucket ("videos/" ++ fname)])
    else if cfg.cloud_provider = "gcp" then
      match deps.gcsRes with
      | .error e => .error ("Erreur lors de la sauvegarde de la video: " ++ e)
      | .ok _ => .ok (localP, [.gcsUp deps.gcsBucket ("videos/" ++ fname)])
    else .ok (localP, [])

/-- C6, confirmed.  `save_video` returns the path of the file moved
into the configured local directory; it uploads to S3 under
`videos/<filename>` exactly when the provider is `"aws"`, to GCS under
`videos/<filename>` exactly when it is `"gcp"`, and performs no cloud
upload for any other provider; and a failing rename, or a failing
upload for the matching provider, yields an `Exception` instead of a
path. -/
theorem C6_save_video (cfg : StorageCfg) (deps : SaveDeps) (vp : String)
    (fn : Option String) :
    (∀ out, save_video cfg deps vp fn = .ok out →
      out.1 = cfg.local_path ++ "/" ++ chosenFilename vp fn ∧
      out.2 = (if cfg.cloud_provider = "aws" then
          [CloudOp.s3Up deps.awsBucket ("videos/" ++ chosenFilename vp fn)]
        else if cfg.cloud_provider = "gcp" then
          [CloudOp.gcsUp deps.gcsBucket ("videos/" ++ chosenFilename vp fn)]
        else []))
  ∧ (∀ e, deps.renameRes = .error e → ∃ msg, save_video cfg deps vp fn = .error msg)
  ∧ (∀ e, cfg.cloud_provider = "aws" → deps.s3Res = .error e →
      ∃ msg, save_video cfg deps vp fn = .error msg)
  ∧ (∀ e, cfg.cloud_provider = "gcp" → deps.gcsRes = .error e →
      ∃ msg, save_video cfg deps vp fn = .error msg) := by
  refine ⟨?_, ?_, ?_, ?_⟩
  · intro out hout
    rw [save_video] at hout
    cases hrn : deps.renameRes with
    | error e => rw [hrn] at hout; exact absurd hout (by simp)
    | ok u =>
      rw [hrn] at hout
      dsimp only at hout
      by_cases haws : cfg.cloud_provider = "aws"
      · simp only [haws, if_pos rfl, eq_self_iff_true, if_true] at hout ⊢
        cases hs3 : deps.s3Res with
        | error e => rw [hs3] at hout; exact absurd hout (by simp)
        | ok u2 => rw [hs3] at hout; cases hout; exact ⟨rfl, rfl⟩
      · simp only [haws, if_false] at hout ⊢
        by_cases hgcp : cfg.cloud_provider = "gcp"
        · simp only [hgcp, eq_self_iff_true, if_true] at hout ⊢
          cases hg : deps.gcsRes with
          | error e => rw [hg] at hout; exact absurd hout (by simp)
          | ok u2 => rw [hg] at hout; cases hout; exact ⟨rfl, rfl⟩
        · simp only [hgcp, if_false] at hout ⊢
          cases hout
          exact ⟨rfl, rfl⟩
  · intro e he
    rw [save_video, he]
    exact ⟨_, rfl⟩
  · intro e haws he
    rw [save_video]
    cases hrn : deps.renameRes with
    | error e2 => exact ⟨_, rfl⟩
    | ok u =>
      dsimp only
      rw [if_pos haws, he]
      exact ⟨_, rfl⟩
  · intro e hgcp he
    rw [save_video]
    cases hrn : deps.renameRes with
    | error e2 => exact ⟨_, rfl⟩
    | ok u =>
      dsimp only
      rw [if_neg (by rw [hgcp]; decide), if_pos hgcp, he]
      exact ⟨_, rfl⟩

/-- Cloud oracles for a successful AWS run. -/
def c6Deps : SaveDeps := ⟨.ok (), .ok (), .ok (), "bkt", "gbkt"⟩

/-- Cloud oracles whose S3 upload fails. -/
def c6DepsBad : SaveDeps := ⟨.ok (), .error "s3 down", .ok (), "bkt", "gbkt"⟩

/-- C6, witness: the theorem applied to a concrete successful AWS save
and to a concrete failing S3 upload. -/
theorem C6_witness :
    (("videos/final_1.mp4" : String) = "videos" ++ "/" ++
        chosenFilename "temp/final_1.mp4" none ∧
      ([CloudOp.s3Up "bkt" ("videos/" ++ chosenFilename "temp/final_1.mp4" none)] :
          List CloudOp) =
        (if ("aws" : String) = "aws" then
          [CloudOp.s3Up "bkt" ("videos/" ++ chosenFilename "temp/final_1.mp4" none)]
        else if ("aws" : String) = "gcp" then
          [CloudOp.gcsUp "gbkt" ("videos/" ++ chosenFilename "temp/final_1.mp4" none)]
        else []))
  ∧ (∃ msg, save_video ⟨"videos", "aws"⟩ c6DepsBad "temp/final_1.mp4" none = .error msg) :=
  ⟨(C6_save_video ⟨"videos", "aws"⟩ c6Deps "temp/final_1.mp4" none).1
      ("videos/final_1.mp4", [CloudOp.s3Up "bkt" "videos/final_1.mp4"]) (by decide),
   (C6_save_video ⟨"videos", "aws"⟩ c6DepsBad "temp/final_1.mp4" none).2.2.1 "s3 down"
      rfl rfl⟩


/-! ## Component construction (`main.py` lines 26-46) and theme
selection (`src/theme_selector.py`) -/

/-- Python keyword-argument binding: a call is accepted only when
every keyword names a declared parameter (otherwise `TypeError:
unexpected keyword argument`). -/
def pyKwCallOk (params kwargs : List String) : Bool :=
  kwargs.all (fun k => params.contains k)

/-- Parameters of `ThemeSelector.__init__` (`theme_selector.py`
line 7): only `config_path`. -/
def themeSelectorParams : List String := ["config_path"]

/-- Parameters of `StorageManager.__init__` (`storage.py` line 12):
only `config_path`. -/
def storageManagerParams : List String := ["config_path"]

/-- Parameters of `QuestionGenerator.__init__`
(`question_generator.py` line 13). -/
def questionGeneratorParams : List String := ["config", "num_questions"]

/-- Parameters of `TTSEngine.__init__` (`tts_engine.py` line 13). -/
def ttsEngineParams : List String := ["config"]

/-- Parameters of `VideoCreator.__init__` (`video_creator.py`
line 16). -/
def videoCreatorParams : List String := ["config", "theme"]

/-- Parameters of `SRTGenerator.__init__` (`srt_generator.py`
line 15). -/
def srtGeneratorParams : List String := ["config"]

/-- The component constructions `VideoGenerator.__init__` performs, in
source order (`main.py` lines 34-46), each with the keyword arguments
the call site passes. -/
def videoGeneratorInitCalls : List (String × List String × List String) :=
  [("ThemeSelector", themeSelectorParams, ["config"]),
   ("QuestionGenerator", questionGeneratorParams, ["num_questions", "config"]),
   ("TTSEngine", ttsEngineParams, ["config"]),
   ("VideoCreator", videoCreatorParams, ["theme", "config"]),
   ("StorageManager", storageManagerParams, ["config"]),
   ("SRTGenerator", srtGeneratorParams, ["config"])]

/-- Run the constructor calls in order, stopping at the first call
whose keywords do not bind (a `TypeError`); on success, the list of
constructed components. -/
def runInitCalls : List (String × List String × List String) → Except String (List String)
  | [] => .ok []
  | (nm, params, kwargs) :: rest =>
    if pyKwCallOk params kwargs then
      (runInitCalls rest).map (fun ns => nm :: ns)
    else .error ("TypeError: " ++ nm ++ " unexpected keyword argument")

/-- `VideoGenerator.__init__` (`main.py` lines 26-46) as the sequence
of component constructions it attempts after loading the configuration
(the config content never influences which keywords are passed). -/
def videoGeneratorInit (_config : String) : Except String (List String) :=
  runInitCalls videoGeneratorInitCalls

/-- C7, confirmed.  For every configuration content, constructing
`VideoGenerator` raises a `TypeError` at the very first component:
`ThemeSelector(config=...)` passes the keyword `config`, which
`ThemeSelector.__init__` (accepting only `config_path`) rejects, so no
later component is built and no pipeline stage can run; the
`StorageManager(config=...)` call at line 45 would be rejected for the
same reason. -/
theorem C7_init_type_error (config : String) :
    videoGeneratorInit config =
      .error ("TypeError: " ++ "ThemeSelector" ++ " unexpected keyword argument")
  ∧ pyKwCallOk themeSelectorParams ["config"] = false
  ∧ pyKwCallOk storageManagerParams ["config"] = false
  ∧ ∀ built, videoGeneratorInit config ≠ .ok built := by
  have hbase : runInitCalls videoGeneratorInitCalls =
      .error ("TypeError: " ++ "ThemeSelector" ++ " unexpected keyword argument") := by
    decide
  refine ⟨hbase, by decide, by decide, ?_⟩
  intro built h
  rw [show videoGeneratorInit config = runInitCalls videoGeneratorInitCalls from rfl,
    hbase] at h
  cases h

/-! ## Theme selection (`src/theme_selector.py`) -/

/-- The persistent selector state: the configured themes, the
`last_theme` attribute and the persisted history
(`theme_selector.py` lines 8-31). -/
structure ThemeState where
  themes : List String
  last_theme : Option String
  history : List String
deriving Repr, DecidableEq

/-- Python exceptions `get_next_theme` can raise: `random.choice` on
an empty sequence raises `IndexError`; `list.index` on a missing
element raises `ValueError`. -/
inductive ThemeErr
  | indexError
  | valueError
deriving Repr, DecidableEq

/-- `ThemeSelector.get_next_theme`, lines 33-60.  `rand` is the oracle
for `random.choice`: the element picked is `available[rand % len]`,
which ranges over every possible choice; on an empty list the call
raises `IndexError`.  With the `"random"` strategy the candidates are
the themes different from `last_theme`; any other strategy takes the
`cycle` branch.  The returned theme is recorded as `last_theme` and
appended to the persisted history (lines 56-58). -/
def get_next_theme (s : ThemeState) (strategy : String) (rand : Nat) :
    Except ThemeErr (String × ThemeState) :=
  if strategy = "random" then
    let avail := s.themes.filter (fun t => !(s.last_theme == some t))
    match avail.get? (rand % avail.length) with
    | none => .error .indexError
    | some theme => .ok (theme, ⟨s.themes, some theme, s.history ++ [theme]⟩)
  else
    match s.history.getLast? with
    | none =>
      match s.themes.get? 0 with
      | none => .error .indexError
      | some theme => .ok (theme, ⟨s.themes, some theme, s.history ++ [theme]⟩)
    | some lastH =>
      match s.themes.indexOf? lastH with
      | none => .error .valueError
      | some ci =>
        match s.themes.get? ((ci + 1) % s.themes.length) with
        | none => .error .indexError
        | some theme => .ok (theme, ⟨s.themes, some theme, s.history ++ [theme]⟩)

/-- Characterisation of a successful `"random"` selection: the theme
comes from the configured list, differs from `last_theme`, and the new
state records it. -/
theorem get_next_theme_random_ok (s : ThemeState) (r : Nat) (t : String)
    (s' : ThemeState) (h : get_next_theme s "random" r = .ok (t, s')) :
    t ∈ s.themes ∧ s.last_theme ≠ some t ∧
      s' = ⟨s.themes, some t, s.history ++ [t]⟩ := by
  rw [get_next_theme, if_pos rfl] at h
  dsimp only at h
  cases hget : (s.themes.filter (fun t => !(s.last_theme == some t))).get?
      (r % (s.themes.filter (fun t => !(s.last_theme == some t))).length) with
  | none => rw [hget] at h; exact absurd h (by simp)
  | some t0 =>
    rw [hget] at h
    injection h with h
    injection h with h1 h2
    subst h1
    have hmem := List.get?_mem hget
    rcases List.mem_filter.mp hmem with ⟨hth, hpred⟩
    refine ⟨hth, ?_, h2.symm⟩
    intro hlast
    rw [hlast] at hpred
    simp at hpred

/-- With at least two distinct configured themes, the `"random"`
selection always succeeds: at least one theme differs from
`last_theme`. -/
theorem get_next_theme_random_succeeds (s : ThemeState) (r : Nat)
    (h : ∃ a ∈ s.themes, ∃ b ∈ s.themes, a ≠ b) :
    ∃ t s', get_next_theme s "random" r = .ok (t, s') := by
  have hne : s.themes.filter (fun t => !(s.last_theme == some t)) ≠ [] := by
    rcases h with ⟨a, ha, b, hb, hab⟩
    intro hnil
    have hall := List.filter_eq_nil_iff.mp hnil
    have hfa := hall a ha
    have hfb := hall b hb
    simp at hfa hfb
    rw [hfa] at hfb
    injection hfb with hfb
    exact hab hfb
  have hl : 0 < (s.themes.filter (fun t => !(s.last_theme == some t))).length :=
    List.length_pos.mpr hne
  have hlt : r % (s.themes.filter (fun t => !(s.last_theme == some t))).length <
      (s.themes.filter (fun t => !(s.last_theme == some t))).length :=
    Nat.mod_lt r hl
  rw [get_next_theme, if_pos rfl]
  dsimp only
  rw [List.get?_eq_get hlt]
  exact ⟨_, _, rfl⟩

/-- C9, confirmed.  Two consecutive successful `"random"` selections
never return the same theme; every returned theme is appended to the
persisted history; with at least two distinct configured themes both
consecutive calls succeed for every random draw; and with a singleton
theme list whose element was just returned the call raises
`IndexError`. -/
theorem C9_theme_selector (s : ThemeState) (r1 r2 : Nat) :
    (∀ t1 s1 t2 s2, get_next_theme s "random" r1 = .ok (t1, s1) →
      get_next_theme s1 "random" r2 = .ok (t2, s2) → t2 ≠ t1)
  ∧ (∀ t1 s1, get_next_theme s "random" r1 = .ok (t1, s1) →
      s1.history = s.history ++ [t1] ∧ s1.last_theme = some t1)
  ∧ ((∃ a ∈ s.themes, ∃ b ∈ s.themes, a ≠ b) →
      ∃ t1 s1 t2 s2, get_next_theme s "random" r1 = .ok (t1, s1) ∧
        get_next_theme s1 "random" r2 = .ok (t2, s2))
  ∧ (∀ x h, get_next_theme ⟨[x], some x, h⟩ "random" r1 = .error .indexError) := by
  refine ⟨?_, ?_, ?_, ?_⟩
  · intro t1 s1 t2 s2 h1 h2
    rcases get_next_theme_random_ok s r1 t1 s1 h1 with ⟨_, _, hs1⟩
    rcases get_next_theme_random_ok s1 r2 t2 s2 h2 with ⟨_, hlast, _⟩
    subst hs1
    intro heq
    subst heq
    exact hlast rfl
  · intro t1 s1 h1
    rcases get_next_theme_random_ok s r1 t1 s1 h1 with ⟨_, _, hs1⟩
    subst hs1
    exact ⟨rfl, rfl⟩
  · intro hd
    rcases get_next_theme_random_succeeds s r1 hd with ⟨t1, s1, h1⟩
    rcases get_next_theme_random_ok s r1 t1 s1 h1 with ⟨_, _, hs1⟩
    have hd1 : ∃ a ∈ s1.themes, ∃ b ∈ s1.themes, a ≠ b := by
      rw [hs1]
      exact hd
    rcases get_next_theme_random_succeeds s1 r2 hd1 with ⟨t2, s2, h2⟩
    exact ⟨t1, s1, t2, s2, h1, h2⟩
  · intro x h
    rw [get_next_theme, if_pos rfl]
    dsimp only
    rw [show ([x].filter (fun t => !((some x : Option String) == some t))) = [] from by
      simp [List.filter]]
    rfl

/-- C9, witness: starting from themes `["a", "b"]` with no previous
theme, draw 0 returns `"a"`, the next draw 0 returns `"b"` — distinct
— the history records each, and the singleton case raises. -/
theorem C9_witness :
    (("b" : String) ≠ "a")
  ∧ ((⟨["a", "b"], some "a", ["a"]⟩ : ThemeState).history =
      ([] : List String) ++ ["a"] ∧
      (⟨["a", "b"], some "a", ["a"]⟩ : ThemeState).last_theme = some "a")
  ∧ get_next_theme ⟨["z"], some "z", []⟩ "random" 5 = .error .indexError :=
  ⟨(C9_theme_selector ⟨["a", "b"], none, []⟩ 0 0).1 "a" ⟨["a", "b"], some "a", ["a"]⟩
      "b" ⟨["a", "b"], some "b", ["a", "b"]⟩ (by decide) (by decide),
   (C9_theme_selector ⟨["a", "b"], none, []⟩ 0 0).2.1 "a" ⟨["a", "b"], some "a", ["a"]⟩
      (by decide),
   (C9_theme_selector ⟨["a", "b"], none, []⟩ 0 5).2.2.2 "z" []⟩


/-- C4, witness: the amended block-structure theorem applied to a
concrete one-word segment, yielding well-formed time strings. -/
theorem C4_witness : GoodTimeStr (formatTime 0) ∧ GoodTimeStr (formatTime 0) :=
  (C4_block_structure ⟨true⟩ [⟨"p", "a", 0, 0, 0, false, false⟩]).2
    ⟨1, formatTime 0, formatTime 0, "a"⟩
    (by
      simp [generate_srt, allWords, adjustInfos, adjustGo, segSpans, segWords,
        assignSpans, List.enumFrom, show splitWords "a" = ["a"] from by decide]
      decide)

/-- C7, witness: the constructor theorem applied at a concrete
configuration content. -/
theorem C7_witness :
    videoGeneratorInit "x" =
      .error ("TypeError: " ++ "ThemeSelector" ++ " unexpected keyword argument")
  ∧ ∀ built, videoGeneratorInit "x" ≠ .ok built :=
  ⟨(C7_init_type_error "x").1, (C7_init_type_error "x").2.2.2⟩

end AutoTik
